import Mathlib

/-! VCMI battle hex sets and unit footprint geometry.

A shallow embedding of `lib/battle/BattleHexArray.h` (class `BattleHexArray`) and of the
footprint functions of `lib/battle/Unit.cpp` (`occupiedHex`, `getHexes`, `getSurroundingHexes`,
`getAttackableHexes`, `coversPos`).

A `BattleHex` wraps a signed 16-bit integer; coordinates are modelled as `Int`, and the
places where the source converts an `int` back into a `BattleHex` go through `toSi16`.
The logging calls of the source have no effect on the state and are left out.
-/

set_option autoImplicit false

namespace VCMI

/-! ## The coordinate primitive -/

/-- Modelled from the spec: the enumeration `BattleHex::EDir` lives in `BattleHex.h`, which is
not among the sources. The six hexagonal directions, in the canonical order (values 0 to 5)
that `Unit.cpp` relies on when it casts the integers 0..4 to `EDir`. -/
inductive EDir
  | TOP_LEFT
  | TOP_RIGHT
  | RIGHT
  | BOTTOM_RIGHT
  | BOTTOM_LEFT
  | LEFT
  deriving DecidableEq, Repr

/-- Modelled from the spec: `BattleHex::hexagonalDirections()` (declared in `BattleHex.h`),
the static ordered list of the six directions. -/
def hexagonalDirections : List EDir :=
  [EDir.TOP_LEFT, EDir.TOP_RIGHT, EDir.RIGHT, EDir.BOTTOM_RIGHT, EDir.BOTTOM_LEFT, EDir.LEFT]

/-- The directions visited by the loop
`for(dir = EDir(0); dir <= EDir(4); dir = EDir(dir + 1))` of `Unit::getSurroundingHexes`. -/
def directionsZeroToFour : List EDir :=
  [EDir.TOP_LEFT, EDir.TOP_RIGHT, EDir.RIGHT, EDir.BOTTOM_RIGHT, EDir.BOTTOM_LEFT]

/-- The two battle sides (`BattleSide::ATTACKER`, `BattleSide::DEFENDER`). -/
inductive BattleSide
  | ATTACKER
  | DEFENDER
  deriving DecidableEq, Repr

/-- Modelled from the spec: the storage type of `BattleHex` is declared in `BattleHex.h`, which
is not among the sources; it is taken to be a signed 16-bit integer. Conversion of a C++ `int`
to that type (two's complement wrap). -/
def toSi16 (n : Int) : Int := (n + 32768) % 65536 - 32768

/-- Modelled from the spec: `BattleHex.h` and `GameConstants` are not among the sources, so
the parts of the coordinate primitive that `BattleHexArray.h` and `Unit.cpp` consume are taken
as parameters: the number of grid cells `totalSize` (a `uint8_t` in the source, hence at most
255), the invalid sentinel, the three tower constants, the predicate `isAvailable`, the
operation `cloneInDirection(dir, false)` and the function `getDistance`. -/
structure HexGrid where
  totalSize : Nat
  totalSize_le : totalSize ≤ 255
  INVALID : Int
  CASTLE_CENTRAL_TOWER : Int
  CASTLE_UPPER_TOWER : Int
  CASTLE_BOTTOM_TOWER : Int
  isAvailable : Int → Bool
  cloneInDirection : Int → EDir → Int
  getDistance : Int → Int → Nat

/-- Modelled from the spec: `BattleHex::isValid()`, "is a real grid index": the coordinate
indexes one of the `totalSize` cells (and so one of the `totalSize` presence flags). -/
def HexGrid.isValid (G : HexGrid) (hex : Int) : Bool :=
  decide (0 ≤ hex) && decide (hex < (G.totalSize : Int))

/-! ### The standard 17 x 11 offset-row grid -/

/-- Modelled from the spec: `GameConstants::BFIELD_WIDTH`. -/
def BFIELD_WIDTH : Int := 17

/-- Modelled from the spec: `GameConstants::BFIELD_HEIGHT`. -/
def BFIELD_HEIGHT : Int := 11

/-- Modelled from the spec: `GameConstants::BFIELD_SIZE`, width times height. -/
def BFIELD_SIZE : Nat := 187

/-- Modelled from the spec: `BattleHex::getX()`, the column `hex % BFIELD_WIDTH`
(C++ remainder, truncating towards zero). -/
def stdGetX (hex : Int) : Int := Int.tmod hex BFIELD_WIDTH

/-- Modelled from the spec: `BattleHex::getY()`, the row `hex / BFIELD_WIDTH`
(C++ division, truncating towards zero). -/
def stdGetY (hex : Int) : Int := Int.tdiv hex BFIELD_WIDTH

/-- Modelled from the spec: `BattleHex::setXY(x, y, false)`: the coordinate
`x + y * BFIELD_WIDTH`, stored as `si16`, without any validity check. -/
def stdSetXY (x y : Int) : Int := toSi16 (x + y * BFIELD_WIDTH)

/-- Modelled from the spec: `BattleHex::cloneInDirection(dir, false)` on the offset-row grid:
odd rows are shifted, so the diagonal steps depend on the parity of the row. -/
def stdCloneInDirection (hex : Int) (dir : EDir) : Int :=
  let x := stdGetX hex
  let y := stdGetY hex
  let odd : Bool := Int.tmod y 2 != 0
  match dir with
  | EDir.TOP_LEFT => stdSetXY (if odd then x - 1 else x) (y - 1)
  | EDir.TOP_RIGHT => stdSetXY (if odd then x else x + 1) (y - 1)
  | EDir.RIGHT => stdSetXY (x + 1) y
  | EDir.BOTTOM_RIGHT => stdSetXY (if odd then x else x + 1) (y + 1)
  | EDir.BOTTOM_LEFT => stdSetXY (if odd then x - 1 else x) (y + 1)
  | EDir.LEFT => stdSetXY (x - 1) y

/-- Modelled from the spec: `BattleHex::isAvailable()`, "valid and not a tower cell", with
the validity range and the tower constants of the standard grid below. -/
def stdIsAvailable (hex : Int) : Bool :=
  (decide (0 ≤ hex) && decide (hex < (BFIELD_SIZE : Int)))
    && !(hex == -2 || hex == -4 || hex == -3)

/-- Modelled from the spec: `BattleHex::getDistance(hex1, hex2)`, the hexagonal grid
distance, returned as `uint8_t`. -/
def stdGetDistance (hex1 hex2 : Int) : Nat :=
  let y1 := stdGetY hex1
  let y2 := stdGetY hex2
  let x1 := stdGetX hex1 + Int.tdiv y1 2
  let x2 := stdGetX hex2 + Int.tdiv y2 2
  let xDst := x2 - x1
  let yDst := y2 - y1
  if (0 ≤ xDst ∧ 0 ≤ yDst) ∨ (xDst < 0 ∧ yDst < 0) then
    (max xDst.natAbs yDst.natAbs) % 256
  else
    (xDst.natAbs + yDst.natAbs) % 256

/-- Modelled from the spec: the standard battlefield of the coordinate primitive: 187 cells
in 11 rows of 17, invalid sentinel -1, tower constants -2, -4 and -3. -/
def stdGrid : HexGrid where
  totalSize := BFIELD_SIZE
  totalSize_le := by decide
  INVALID := -1
  CASTLE_CENTRAL_TOWER := -2
  CASTLE_UPPER_TOWER := -4
  CASTLE_BOTTOM_TOWER := -3
  isAvailable := stdIsAvailable
  cloneInDirection := stdCloneInDirection
  getDistance := stdGetDistance

/-! ## `BattleHexArray` -/

/-- The two private members of `BattleHexArray`: the vector `internalStorage` and the array
`presenceFlags` of `totalSize` bytes, read as a map from cell index to flag (initially all
clear; the source only writes it at indices below `totalSize`). -/
structure BattleHexArray where
  internalStorage : List Int
  presenceFlags : Nat → Bool

/-- The assignment `flags[i] = v`. -/
def setFlag (flags : Nat → Bool) (i : Nat) (v : Bool) : Nat → Bool :=
  fun j => if j = i then v else flags j

namespace BattleHexArray

/-- The default constructor: no elements, all flags clear. -/
def empty : BattleHexArray := ⟨[], fun _ => false⟩

/-- The member `size()`. -/
def size (s : BattleHexArray) : Nat := s.internalStorage.length

/-- The member `isTower`. -/
def isTower (G : HexGrid) (hex : Int) : Bool :=
  hex == G.CASTLE_CENTRAL_TOWER || hex == G.CASTLE_UPPER_TOWER || hex == G.CASTLE_BOTTOM_TOWER

/-- The member `contains`. -/
def contains (G : HexGrid) (s : BattleHexArray) (hex : Int) : Bool :=
  if G.isValid hex then s.presenceFlags hex.toNat else false

/-- The member `isNotValidForInsertion`. -/
def isNotValidForInsertion (G : HexGrid) (s : BattleHexArray) (hex : Int) : Bool :=
  if isTower G hex then true
  else if !G.isValid hex then true
  else contains G s hex || decide (s.size ≥ G.totalSize)

/-- The member `insert(BattleHex)`. -/
def insert (G : HexGrid) (s : BattleHexArray) (hex : Int) : BattleHexArray :=
  if isNotValidForInsertion G s hex then s
  else
    { internalStorage := s.internalStorage ++ [hex]
      presenceFlags := setFlag s.presenceFlags hex.toNat true }

/-- The member `insert(iterator pos, BattleHex)`, the iterator given as the index `pos`
(meaningful for `pos ≤ size()`); returns the index of the returned iterator and the set. -/
def insertAt (G : HexGrid) (s : BattleHexArray) (pos : Nat) (hex : Int) : Nat × BattleHexArray :=
  if isNotValidForInsertion G s hex then (pos, s)
  else
    (pos,
      { internalStorage := s.internalStorage.take pos ++ hex :: s.internalStorage.drop pos
        presenceFlags := setFlag s.presenceFlags hex.toNat true })

/-- The member `checkAndPush`. -/
def checkAndPush (G : HexGrid) (s : BattleHexArray) (tile : Int) : BattleHexArray :=
  if G.isAvailable tile then insert G s tile else s

/-- Modelled from the spec: `merge` is only declared in the header (its body is in
`BattleHexArray.cpp`, not among the sources): "inserts every member of `other` into `self`
under the same admission rules". -/
def merge (G : HexGrid) (s other : BattleHexArray) : BattleHexArray :=
  other.internalStorage.foldl (insert G) s

/-- Modelled from the spec: `clear` is only declared in the header: "empties the sequence and
clears all presence flags". -/
def clear (_s : BattleHexArray) : BattleHexArray := ⟨[], fun _ => false⟩

/-- The member `erase(size_type index)`. The result is `none` where the source defines none:
when the assertion `index < totalSize` fails (the bound that also keeps `presenceFlags[index]`
inside the array of `totalSize` flags), or when the vector has no slot `index`. -/
def erase (G : HexGrid) (s : BattleHexArray) (index : Nat) : Option BattleHexArray :=
  if index < G.totalSize ∧ index < s.internalStorage.length then
    some
      { internalStorage := s.internalStorage.set index G.INVALID
        presenceFlags := setFlag s.presenceFlags index false }
  else none

/-- The member `pop_back` (meaningful for a non-empty set whose last element indexes a flag). -/
def pop_back (s : BattleHexArray) : BattleHexArray :=
  match s.internalStorage.getLast? with
  | none => s
  | some last =>
    { internalStorage := s.internalStorage.dropLast
      presenceFlags := setFlag s.presenceFlags last.toNat false }

/-- The precondition of `pop_back`: `internalStorage.back()` exists and indexes a flag. -/
def popBackDefined (G : HexGrid) (s : BattleHexArray) : Prop :=
  ∃ last, s.internalStorage.getLast? = some last ∧ G.isValid last = true

/-- The member `resize(size_type size)`: clears the flags at the indices `size .. totalSize - 1`
and resizes the vector (new slots hold the default `BattleHex`, the invalid sentinel). -/
def resize (G : HexGrid) (s : BattleHexArray) (n : Nat) : BattleHexArray :=
  { internalStorage := s.internalStorage.take n ++ List.replicate (n - s.internalStorage.length) G.INVALID
    presenceFlags := fun i => if n ≤ i ∧ i < G.totalSize then false else s.presenceFlags i }

/-- The member `filterBy`. -/
def filterBy (G : HexGrid) (s : BattleHexArray) (predicate : Int → Bool) : BattleHexArray :=
  s.internalStorage.foldl (fun filtered hex => if predicate hex then insert G filtered hex else filtered) empty

/-- The members `front()` (the invalid sentinel stands in on an empty vector). -/
def front (G : HexGrid) (s : BattleHexArray) : Int := s.internalStorage.headD G.INVALID

/-- The members `back()` (the invalid sentinel stands in on an empty vector). -/
def back (G : HexGrid) (s : BattleHexArray) : Int := s.internalStorage.getLastD G.INVALID

/-- The static member `generateNeighbouringTiles`. -/
def generateNeighbouringTiles (G : HexGrid) (hex : Int) : BattleHexArray :=
  hexagonalDirections.foldl (fun ret dir => checkAndPush G ret (G.cloneInDirection hex dir)) empty

/-- The static member `generateAllNeighbouringTiles`. -/
def generateAllNeighbouringTiles (G : HexGrid) (hex : Int) : BattleHexArray :=
  hexagonalDirections.foldl (fun ret dir => insert G ret (G.cloneInDirection hex dir)) empty

end BattleHexArray

/-! ## `battle::Unit` -/

/-- The part of the abstract class `battle::Unit` that the footprint functions read:
`getPosition()`, `doubleWide()` and `unitSide()`. -/
structure Unit where
  position : Int
  doubleWide : Bool
  side : BattleSide

namespace Unit

open BattleHexArray

/-- The static `Unit::occupiedHex(assumedPos, twoHex, side)`. -/
def occupiedHex (G : HexGrid) (assumedPos : Int) (twoHex : Bool) (side : BattleSide) : Int :=
  if twoHex then
    if side = BattleSide.ATTACKER then toSi16 (assumedPos - 1)
    else toSi16 (assumedPos + 1)
  else G.INVALID

/-- The static `Unit::getHexes(assumedPos, twoHex, side)`. -/
def getHexes (G : HexGrid) (assumedPos : Int) (twoHex : Bool) (side : BattleSide) : BattleHexArray :=
  let hexes := insert G empty assumedPos
  if twoHex then insert G hexes (occupiedHex G assumedPos twoHex side) else hexes

/-- The static `Unit::getSurroundingHexes(position, twoHex, side)`. -/
def getSurroundingHexes (G : HexGrid) (position : Int) (twoHex : Bool) (side : BattleSide) :
    BattleHexArray :=
  if twoHex then
    let otherHex := occupiedHex G position twoHex side
    if side = BattleSide.ATTACKER then
      let hexes := directionsZeroToFour.foldl
        (fun hexes dir => checkAndPush G hexes (G.cloneInDirection position dir)) empty
      let hexes := checkAndPush G hexes (G.cloneInDirection otherHex EDir.BOTTOM_LEFT)
      let hexes := checkAndPush G hexes (G.cloneInDirection otherHex EDir.LEFT)
      checkAndPush G hexes (G.cloneInDirection otherHex EDir.TOP_LEFT)
    else
      let hexes := checkAndPush G empty (G.cloneInDirection position EDir.TOP_LEFT)
      let hexes := directionsZeroToFour.foldl
        (fun hexes dir => checkAndPush G hexes (G.cloneInDirection otherHex dir)) hexes
      let hexes := checkAndPush G hexes (G.cloneInDirection position EDir.BOTTOM_LEFT)
      checkAndPush G hexes (G.cloneInDirection position EDir.LEFT)
  else generateAllNeighbouringTiles G position

/-- The member `Unit::getAttackableHexes(attacker)`, called on the defender `self`. -/
def getAttackableHexes (G : HexGrid) (self attacker : Unit) : BattleHexArray :=
  let defenderHexes := getHexes G self.position self.doubleWide self.side
  defenderHexes.internalStorage.foldl
    (fun targetableHexes defenderHex =>
      let hexes := getHexes G defenderHex attacker.doubleWide self.side
      let hexes :=
        if hexes.size = 2 ∧ G.getDistance (front G hexes) (back G hexes) ≠ 1 then pop_back hexes
        else hexes
      hexes.internalStorage.foldl
        (fun targetable hex => merge G targetable (generateNeighbouringTiles G hex))
        targetableHexes)
    empty

/-- The member `Unit::coversPos(pos)`. -/
def coversPos (G : HexGrid) (self : Unit) (pos : Int) : Bool :=
  self.position == pos ||
    (self.doubleWide && occupiedHex G self.position self.doubleWide self.side == pos)

end Unit

open BattleHexArray Unit

/-! ## Reachable hex sets and the representation invariant -/

/-- Hex sets built from the empty set with `insert`, positional `insert`, `checkAndPush` and
`merge` (with any argument). -/
inductive Grown (G : HexGrid) : BattleHexArray → Prop
  | empty : Grown G empty
  | insert (s : BattleHexArray) (hex : Int) : Grown G s → Grown G (insert G s hex)
  | insertAt (s : BattleHexArray) (pos : Nat) (hex : Int) :
      Grown G s → pos ≤ s.size → Grown G (insertAt G s pos hex).2
  | checkAndPush (s : BattleHexArray) (tile : Int) : Grown G s → Grown G (checkAndPush G s tile)
  | merge (s other : BattleHexArray) : Grown G s → Grown G (merge G s other)

/-- Hex sets built from the empty set with `insert`, positional `insert`, `checkAndPush`,
`merge`, `pop_back` and `clear`; `pop_back` is only taken where the source defines it. -/
inductive Built (G : HexGrid) : BattleHexArray → Prop
  | empty : Built G empty
  | insert (s : BattleHexArray) (hex : Int) : Built G s → Built G (insert G s hex)
  | insertAt (s : BattleHexArray) (pos : Nat) (hex : Int) :
      Built G s → pos ≤ s.size → Built G (insertAt G s pos hex).2
  | checkAndPush (s : BattleHexArray) (tile : Int) : Built G s → Built G (checkAndPush G s tile)
  | merge (s other : BattleHexArray) : Built G s → Built G (merge G s other)
  | pop_back (s : BattleHexArray) : Built G s → popBackDefined G s → Built G (pop_back s)
  | clear (s : BattleHexArray) : Built G s → Built G (clear s)

/-- Hex sets built from the empty set with all the public mutators, `erase(index)` included
(taken where it has a result: at indices below `size()` that pass the assertion
`index < totalSize`). -/
inductive Mutated (G : HexGrid) : BattleHexArray → Prop
  | empty : Mutated G empty
  | insert (s : BattleHexArray) (hex : Int) : Mutated G s → Mutated G (insert G s hex)
  | insertAt (s : BattleHexArray) (pos : Nat) (hex : Int) :
      Mutated G s → pos ≤ s.size → Mutated G (insertAt G s pos hex).2
  | checkAndPush (s : BattleHexArray) (tile : Int) :
      Mutated G s → Mutated G (checkAndPush G s tile)
  | merge (s other : BattleHexArray) : Mutated G s → Mutated G (merge G s other)
  | erase (s r : BattleHexArray) (index : Nat) :
      Mutated G s → erase G s index = some r → Mutated G r
  | pop_back (s : BattleHexArray) : Mutated G s → popBackDefined G s → Mutated G (pop_back s)
  | clear (s : BattleHexArray) : Mutated G s → Mutated G (clear s)

/-- The representation invariant of a hex set without tombstones: no duplicates in the
sequence, only valid non-tower coordinates stored, and for a valid coordinate the presence
flag is set exactly when the coordinate occurs in the sequence. -/
structure RepInv (G : HexGrid) (s : BattleHexArray) : Prop where
  nodup : s.internalStorage.Nodup
  admitted : ∀ h ∈ s.internalStorage, G.isValid h = true ∧ isTower G h = false
  flags : ∀ h, G.isValid h = true → (contains G s h = true ↔ h ∈ s.internalStorage)

/-! ## Auxiliary definitions used to state the properties -/

/-- The eight coordinates that `getSurroundingHexes` offers to `checkAndPush` for a
double-cell unit, in the order of the calls. -/
def perimeterCandidates (G : HexGrid) (position : Int) (side : BattleSide) : List Int :=
  let otherHex := Unit.occupiedHex G position true side
  if side = BattleSide.ATTACKER then
    directionsZeroToFour.map (G.cloneInDirection position) ++
      [G.cloneInDirection otherHex EDir.BOTTOM_LEFT, G.cloneInDirection otherHex EDir.LEFT,
        G.cloneInDirection otherHex EDir.TOP_LEFT]
  else
    G.cloneInDirection position EDir.TOP_LEFT ::
      (directionsZeroToFour.map (G.cloneInDirection otherHex) ++
        [G.cloneInDirection position EDir.BOTTOM_LEFT, G.cloneInDirection position EDir.LEFT])

/-- The perimeter property of a double-cell unit at `p` on the standard grid: at most eight
members, all available, pairwise distinct, neither `p` nor the secondary cell among them, and
exactly eight members if and only if the eight candidates are all on the board (valid) and
pairwise distinct. -/
def PerimeterOK (p : Int) (side : BattleSide) : Prop :=
  (getSurroundingHexes stdGrid p true side).size ≤ 8 ∧
  (∀ h ∈ (getSurroundingHexes stdGrid p true side).internalStorage,
    stdGrid.isAvailable h = true) ∧
  (getSurroundingHexes stdGrid p true side).internalStorage.Nodup ∧
  p ∉ (getSurroundingHexes stdGrid p true side).internalStorage ∧
  Unit.occupiedHex stdGrid p true side ∉
    (getSurroundingHexes stdGrid p true side).internalStorage ∧
  ((getSurroundingHexes stdGrid p true side).size = 8 ↔
    ((∀ c ∈ perimeterCandidates stdGrid p side, stdGrid.isValid c = true) ∧
      (perimeterCandidates stdGrid p side).Nodup))

instance instDecidablePerimeterOK (p : Int) (side : BattleSide) : Decidable (PerimeterOK p side) := by
  unfold PerimeterOK
  infer_instance

/-- The hypothetical attacker footprint at the defender cell `d`, as the description of
`getAttackableHexes` words it: the cells of `getHexes(d, twoHex, side)`, without the second
one when there are two cells whose grid distance is not exactly 1. -/
def prunedFootprint (G : HexGrid) (d : Int) (twoHex : Bool) (side : BattleSide) : List Int :=
  match (getHexes G d twoHex side).internalStorage with
  | [a, b] => if G.getDistance a b = 1 then [a, b] else [a]
  | cells => cells

/-- The attackable hexes as the description words them, with the side that orients the
hypothetical footprint left open: for each cell `d` of the defender, in order, the
neighbouring tiles of every cell of the pruned footprint at `d` are merged into the result. -/
def attackableHexesBySide (G : HexGrid) (defender attacker : Unit) (footprintSide : BattleSide) :
    BattleHexArray :=
  ((getHexes G defender.position defender.doubleWide defender.side).internalStorage.flatMap
      (fun d => prunedFootprint G d attacker.doubleWide footprintSide)).foldl
    (fun result c => merge G result (generateNeighbouringTiles G c)) empty

/-- The hex set obtained by inserting the cells `0, 1, ..., totalSize - 1` in this order. -/
def fullBoard (G : HexGrid) : BattleHexArray :=
  (List.range G.totalSize).foldl (fun s n => BattleHexArray.insert G s (n : Int)) empty

/-! ## Basic facts about admission -/

theorem isValid_iff (G : HexGrid) (h : Int) :
    G.isValid h = true ↔ 0 ≤ h ∧ h < (G.totalSize : Int) := by
  simp [HexGrid.isValid]

theorem toNat_inj_of_valid (G : HexGrid) (a b : Int) (ha : G.isValid a = true)
    (hb : G.isValid b = true) : a.toNat = b.toNat ↔ a = b := by
  rw [isValid_iff] at ha hb
  constructor
  · intro h
    have h1 : ((a.toNat : Nat) : Int) = a := Int.toNat_of_nonneg ha.1
    have h2 : ((b.toNat : Nat) : Int) = b := Int.toNat_of_nonneg hb.1
    rw [← h1, ← h2, h]
  · intro h
    rw [h]

theorem admitted_iff (G : HexGrid) (s : BattleHexArray) (h : Int) :
    isNotValidForInsertion G s h = false ↔
      isTower G h = false ∧ G.isValid h = true ∧ contains G s h = false ∧
        s.size < G.totalSize := by
  unfold isNotValidForInsertion
  cases isTower G h <;> cases G.isValid h <;> cases contains G s h <;> simp

theorem insert_rejected (G : HexGrid) (s : BattleHexArray) (h : Int)
    (hr : isNotValidForInsertion G s h = true) : insert G s h = s := by
  simp [BattleHexArray.insert, hr]

theorem insert_admitted (G : HexGrid) (s : BattleHexArray) (h : Int)
    (hr : isNotValidForInsertion G s h = false) :
    insert G s h =
      { internalStorage := s.internalStorage ++ [h]
        presenceFlags := setFlag s.presenceFlags h.toNat true } := by
  simp [BattleHexArray.insert, hr]

theorem contains_setFlag (G : HexGrid) (s : BattleHexArray) (l : List Int) (h x : Int) (v : Bool)
    (hh : G.isValid h = true) (hx : G.isValid x = true) :
    contains G ⟨l, setFlag s.presenceFlags h.toNat v⟩ x
      = if x = h then v else contains G s x := by
  simp only [contains, hx, if_true, setFlag]
  by_cases hxh : x = h
  · simp [hxh]
  · have : ¬ x.toNat = h.toNat := fun e => hxh ((toNat_inj_of_valid G x h hx hh).1 e)
    simp [hxh, this]

/-! ## Preservation of the representation invariant -/

theorem repInv_empty (G : HexGrid) : RepInv G empty :=
  ⟨List.nodup_nil, fun _ hm => absurd hm (List.not_mem_nil _),
    fun h _ => by simp [contains, empty]⟩

/-- Admitting `h` anywhere in the sequence and raising its flag keeps the invariant. -/
theorem repInv_admit (G : HexGrid) (s : BattleHexArray) (h : Int) (l : List Int)
    (hs : RepInv G s) (hr : isNotValidForInsertion G s h = false)
    (hp : List.Perm l (h :: s.internalStorage)) :
    RepInv G ⟨l, setFlag s.presenceFlags h.toNat true⟩ := by
  obtain ⟨ht, hv, hc, _⟩ := (admitted_iff G s h).1 hr
  have hnot : h ∉ s.internalStorage := by
    intro hm
    have hcon := (hs.flags h hv).2 hm
    rw [hc] at hcon
    exact Bool.false_ne_true hcon
  refine ⟨?_, ?_, ?_⟩
  · exact hp.nodup_iff.2 (List.nodup_cons.2 ⟨hnot, hs.nodup⟩)
  · intro x hx
    rcases List.mem_cons.1 (hp.mem_iff.1 hx) with hx | hx
    · rw [hx]
      exact ⟨hv, ht⟩
    · exact hs.admitted x hx
  · intro x hx
    rw [contains_setFlag G s l h x true hv hx]
    show _ ↔ x ∈ l
    rw [hp.mem_iff, List.mem_cons]
    by_cases hxh : x = h
    · simp [hxh]
    · simp [hxh, hs.flags x hx]

theorem repInv_insert (G : HexGrid) (s : BattleHexArray) (h : Int) (hs : RepInv G s) :
    RepInv G (BattleHexArray.insert G s h) := by
  cases hr : isNotValidForInsertion G s h
  · rw [insert_admitted G s h hr]
    exact repInv_admit G s h _ hs hr (List.perm_append_singleton h s.internalStorage)
  · rw [insert_rejected G s h hr]
    exact hs

theorem perm_splice (l : List Int) (k : Nat) (h : Int) :
    List.Perm (l.take k ++ h :: l.drop k) (h :: l) := by
  have h1 : List.Perm (l.take k ++ h :: l.drop k) (h :: (l.take k ++ l.drop k)) :=
    List.perm_middle
  rwa [List.take_append_drop] at h1

theorem repInv_insertAt (G : HexGrid) (s : BattleHexArray) (k : Nat) (h : Int)
    (hs : RepInv G s) : RepInv G (insertAt G s k h).2 := by
  cases hr : isNotValidForInsertion G s h
  · simp only [insertAt, hr]
    exact repInv_admit G s h _ hs hr (perm_splice s.internalStorage k h)
  · simp only [insertAt, hr]
    exact hs

theorem repInv_checkAndPush (G : HexGrid) (s : BattleHexArray) (t : Int) (hs : RepInv G s) :
    RepInv G (checkAndPush G s t) := by
  unfold checkAndPush
  split
  · exact repInv_insert G s t hs
  · exact hs

theorem repInv_foldl_insert (G : HexGrid) (l : List Int) :
    ∀ s : BattleHexArray, RepInv G s → RepInv G (l.foldl (BattleHexArray.insert G) s) := by
  induction l with
  | nil => intro s hs; exact hs
  | cons a l ih => intro s hs; exact ih _ (repInv_insert G s a hs)

theorem repInv_merge (G : HexGrid) (s other : BattleHexArray) (hs : RepInv G s) :
    RepInv G (merge G s other) :=
  repInv_foldl_insert G other.internalStorage s hs

theorem repInv_pop_back (G : HexGrid) (s : BattleHexArray) (hs : RepInv G s) :
    RepInv G (pop_back s) := by
  unfold pop_back
  cases hl : s.internalStorage.getLast? with
  | none => exact hs
  | some last =>
    have hsplit : s.internalStorage.dropLast ++ [last] = s.internalStorage :=
      List.dropLast_append_getLast? last hl
    have hmem : last ∈ s.internalStorage := by
      rw [← hsplit]; simp
    have hlv := (hs.admitted last hmem).1
    have hnd : (s.internalStorage.dropLast ++ [last]).Nodup := by
      rw [hsplit]; exact hs.nodup
    have hnd2 := (List.perm_append_singleton last s.internalStorage.dropLast).nodup_iff.1 hnd
    obtain ⟨hnot, hdl⟩ := List.nodup_cons.1 hnd2
    refine ⟨hdl, ?_, ?_⟩
    · intro x hx
      exact hs.admitted x (List.mem_of_mem_dropLast hx)
    · intro x hx
      rw [contains_setFlag G s _ last x false hlv hx]
      show _ ↔ x ∈ s.internalStorage.dropLast
      by_cases hxl : x = last
      · simp [hxl, hnot]
      · have hiff : x ∈ s.internalStorage ↔ x ∈ s.internalStorage.dropLast := by
          constructor
          · intro hm
            rw [← hsplit] at hm
            rcases List.mem_append.1 hm with hm | hm
            · exact hm
            · exact absurd (List.mem_singleton.1 hm) hxl
          · exact List.mem_of_mem_dropLast
        simp [hxl, hs.flags x hx, hiff]

theorem repInv_clear (G : HexGrid) (s : BattleHexArray) : RepInv G (clear s) :=
  repInv_empty G

theorem built_repInv (G : HexGrid) (s : BattleHexArray) (hb : Built G s) : RepInv G s := by
  induction hb with
  | empty => exact repInv_empty G
  | insert s h _ ih => exact repInv_insert G s h ih
  | insertAt s k h _ _ ih => exact repInv_insertAt G s k h ih
  | checkAndPush s t _ ih => exact repInv_checkAndPush G s t ih
  | merge s o _ ih => exact repInv_merge G s o ih
  | pop_back s _ _ ih => exact repInv_pop_back G s ih
  | clear s _ _ => exact repInv_clear G s

/-! ## Size bounds -/

theorem size_insert_le (G : HexGrid) (s : BattleHexArray) (h : Int)
    (hs : s.size ≤ G.totalSize) : (BattleHexArray.insert G s h).size ≤ G.totalSize := by
  cases hr : isNotValidForInsertion G s h
  · rw [insert_admitted G s h hr]
    have hlt := ((admitted_iff G s h).1 hr).2.2.2
    simp only [size, List.length_append, List.length_singleton] at *
    omega
  · rw [insert_rejected G s h hr]
    exact hs

theorem size_insertAt_le (G : HexGrid) (s : BattleHexArray) (k : Nat) (h : Int)
    (hs : s.size ≤ G.totalSize) : (insertAt G s k h).2.size ≤ G.totalSize := by
  cases hr : isNotValidForInsertion G s h
  · have hlt := ((admitted_iff G s h).1 hr).2.2.2
    have hlen := (perm_splice s.internalStorage k h).length_eq
    simp only [insertAt, hr, size, List.length_cons, Bool.false_eq_true, if_false] at *
    omega
  · simp only [insertAt, hr]
    exact hs

theorem size_foldl_insert_le (G : HexGrid) (l : List Int) :
    ∀ s : BattleHexArray, s.size ≤ G.totalSize →
      (l.foldl (BattleHexArray.insert G) s).size ≤ G.totalSize := by
  induction l with
  | nil => intro s hs; exact hs
  | cons a l ih => intro s hs; exact ih _ (size_insert_le G s a hs)

/-- A duplicate-free list of valid coordinates has at most `totalSize` entries. -/
theorem length_le_of_nodup_valid (G : HexGrid) (l : List Int) (hn : l.Nodup)
    (hv : ∀ x ∈ l, G.isValid x = true) : l.length ≤ G.totalSize := by
  have hinj : ∀ x ∈ l, ∀ y ∈ l, x.toNat = y.toNat → x = y :=
    fun x hx y hy e => (toNat_inj_of_valid G x y (hv x hx) (hv y hy)).1 e
  have hmn : (l.map Int.toNat).Nodup := List.Nodup.map_on hinj hn
  have hsub : (l.map Int.toNat).toFinset ⊆ Finset.range G.totalSize := by
    intro n hn'
    rw [List.mem_toFinset, List.mem_map] at hn'
    obtain ⟨x, hx, rfl⟩ := hn'
    have hxv := (isValid_iff G x).1 (hv x hx)
    rw [Finset.mem_range]
    omega
  have hcard := Finset.card_le_card hsub
  rw [List.toFinset_card_of_nodup hmn, Finset.card_range, List.length_map] at hcard
  exact hcard

/-- Under the invariant the capacity guard cannot reject a valid coordinate that is absent. -/
theorem size_lt_of_repInv (G : HexGrid) (s : BattleHexArray) (h : Int) (hs : RepInv G s)
    (hv : G.isValid h = true) (hc : contains G s h = false) : s.size < G.totalSize := by
  have hnot : h ∉ s.internalStorage := by
    intro hm
    have hcon := (hs.flags h hv).2 hm
    rw [hc] at hcon
    exact Bool.false_ne_true hcon
  have hlen := length_le_of_nodup_valid G (h :: s.internalStorage)
    (List.nodup_cons.2 ⟨hnot, hs.nodup⟩)
    (by
      intro x hx
      rcases List.mem_cons.1 hx with hx | hx
      · rw [hx]; exact hv
      · exact (hs.admitted x hx).1)
  simp only [List.length_cons] at hlen
  exact hlen

/-! ## Membership after an insertion -/

theorem mem_insert_of_mem (G : HexGrid) (s : BattleHexArray) (h x : Int)
    (hx : x ∈ s.internalStorage) : x ∈ (BattleHexArray.insert G s h).internalStorage := by
  cases hr : isNotValidForInsertion G s h
  · rw [insert_admitted G s h hr]
    exact List.mem_append_left _ hx
  · rw [insert_rejected G s h hr]
    exact hx

theorem mem_insert_cases (G : HexGrid) (s : BattleHexArray) (h x : Int)
    (hx : x ∈ (BattleHexArray.insert G s h).internalStorage) :
    x ∈ s.internalStorage ∨ x = h := by
  cases hr : isNotValidForInsertion G s h
  · rw [insert_admitted G s h hr] at hx
    rcases List.mem_append.1 hx with hx | hx
    · exact Or.inl hx
    · exact Or.inr (List.mem_singleton.1 hx)
  · rw [insert_rejected G s h hr] at hx
    exact Or.inl hx

theorem mem_insert_self (G : HexGrid) (s : BattleHexArray) (h : Int) (hs : RepInv G s)
    (hv : G.isValid h = true) (ht : isTower G h = false) :
    h ∈ (BattleHexArray.insert G s h).internalStorage := by
  cases hc : contains G s h
  · have hr : isNotValidForInsertion G s h = false :=
      (admitted_iff G s h).2 ⟨ht, hv, hc, size_lt_of_repInv G s h hs hv hc⟩
    rw [insert_admitted G s h hr]
    exact List.mem_append_right _ (List.mem_singleton.2 rfl)
  · exact mem_insert_of_mem G s h h ((hs.flags h hv).1 hc)

theorem contains_insert_self (G : HexGrid) (s : BattleHexArray) (h : Int)
    (hv : G.isValid h = true) (ht : isTower G h = false)
    (hroom : s.size < G.totalSize ∨ contains G s h = true) :
    contains G (BattleHexArray.insert G s h) h = true := by
  cases hc : contains G s h
  · rcases hroom with hlt | hc2
    · have hr : isNotValidForInsertion G s h = false := (admitted_iff G s h).2 ⟨ht, hv, hc, hlt⟩
      rw [insert_admitted G s h hr, contains_setFlag G s _ h h true hv hv]
      simp
    · rw [hc] at hc2
      exact absurd hc2 Bool.false_ne_true
  · have hr : isNotValidForInsertion G s h = true := by
      simp [isNotValidForInsertion, hc, ht, hv]
    rw [insert_rejected G s h hr]
    exact hc

theorem insert_insert_same (G : HexGrid) (s : BattleHexArray) (h : Int) :
    BattleHexArray.insert G (BattleHexArray.insert G s h) h = BattleHexArray.insert G s h := by
  cases hr : isNotValidForInsertion G s h
  · obtain ⟨ht, hv, hc, hlt⟩ := (admitted_iff G s h).1 hr
    have hcon := contains_insert_self G s h hv ht (Or.inl hlt)
    apply insert_rejected
    simp [isNotValidForInsertion, hcon, ht, hv]
  · rw [insert_rejected G s h hr]
    exact insert_rejected G s h hr

/-! ## The footprint `getHexes` -/

theorem toSi16_of_small (n : Int) (h1 : -32768 ≤ n) (h2 : n ≤ 32767) : toSi16 n = n := by
  unfold toSi16
  omega

theorem getHexes_repInv (G : HexGrid) (p : Int) (twoHex : Bool) (side : BattleSide) :
    RepInv G (getHexes G p twoHex side) := by
  unfold getHexes
  cases twoHex
  · exact repInv_insert G _ _ (repInv_empty G)
  · exact repInv_insert G _ _ (repInv_insert G _ _ (repInv_empty G))

theorem insert_empty_valid (G : HexGrid) (p : Int) (hv : G.isValid p = true)
    (ht : isTower G p = false) :
    BattleHexArray.insert G empty p = ⟨[p], setFlag (fun _ => false) p.toNat true⟩ := by
  have hpos : 0 < G.totalSize := by
    have := (isValid_iff G p).1 hv
    omega
  have hr : isNotValidForInsertion G empty p = false :=
    (admitted_iff G empty p).2 ⟨ht, hv, by simp [contains, empty], by simpa [size, empty] using hpos⟩
  rw [insert_admitted G empty p hr]
  rfl

/-- The second insertion of `getHexes` at a valid non-tower position `p`, for a secondary
cell `q` different from `p`. -/
theorem insert_second_cell (G : HexGrid) (p q : Int) (hv : G.isValid p = true)
    (ht : isTower G p = false) (hne : q ≠ p) :
    (BattleHexArray.insert G (BattleHexArray.insert G empty p) q).internalStorage =
      if G.isValid q = true ∧ isTower G q = false then [p, q] else [p] := by
  rw [insert_empty_valid G p hv ht]
  by_cases hq : G.isValid q = true ∧ isTower G q = false
  · have hc : contains G ⟨[p], setFlag (fun _ => false) p.toNat true⟩ q = false := by
      have := contains_setFlag G empty [p] p q true hv hq.1
      simp only [empty] at this
      rw [this]
      simp [hne, contains]
    have hlt : (⟨[p], setFlag (fun _ => false) p.toNat true⟩ : BattleHexArray).size
        < G.totalSize := by
      have h1 := (isValid_iff G p).1 hv
      have h2 := (isValid_iff G q).1 hq.1
      simp only [size, List.length_singleton]
      omega
    have hr := (admitted_iff G _ q).2 ⟨hq.2, hq.1, hc, hlt⟩
    rw [insert_admitted G _ q hr, if_pos hq]
    rfl
  · have hr : isNotValidForInsertion G ⟨[p], setFlag (fun _ => false) p.toNat true⟩ q = true := by
      unfold isNotValidForInsertion
      cases h1 : isTower G q
      · cases h2 : G.isValid q
        · simp
        · exact absurd ⟨h2, h1⟩ hq
      · simp
    rw [insert_rejected G _ q hr, if_neg hq]

/-! ## The pruning step of `getAttackableHexes` -/

theorem pruned_storage (G : HexGrid) (hexes : BattleHexArray) :
    (if hexes.size = 2 ∧ G.getDistance (front G hexes) (back G hexes) ≠ 1 then pop_back hexes
      else hexes).internalStorage =
      (match hexes.internalStorage with
        | [a, b] => if G.getDistance a b = 1 then [a, b] else [a]
        | cells => cells) := by
  obtain ⟨l, f⟩ := hexes
  match l with
  | [] => simp [size]
  | [a] => simp [size]
  | [a, b] =>
    by_cases hd : G.getDistance a b = 1
    · simp [size, front, back, hd]
    · simp [size, front, back, hd, pop_back]
  | a :: b :: c :: r => simp [size]

theorem foldl_flatMap_eq {α β γ : Type} (f : γ → β → γ) (g : α → List β) (l : List α) :
    ∀ init : γ, (l.flatMap g).foldl f init = l.foldl (fun acc d => (g d).foldl f acc) init := by
  induction l with
  | nil => intro init; rfl
  | cons a l ih =>
    intro init
    rw [List.flatMap_cons, List.foldl_append, ih]
    rfl

theorem mutated_foldl_insert (G : HexGrid) (l : List Nat) :
    ∀ s : BattleHexArray, Mutated G s →
      Mutated G (l.foldl (fun s n => BattleHexArray.insert G s (n : Int)) s) := by
  induction l with
  | nil => intro s hs; exact hs
  | cons a l ih => intro s hs; exact ih _ (Mutated.insert s a hs)

/-- C1, as amended: for every defender and attacker, `defender.getAttackableHexes(attacker)`
is the set obtained by taking, for each cell `d` of the defender, the hypothetical footprint
`getHexes(d, attacker.doubleWide, side of the DEFENDER)`, dropping its second cell when the
two cells are not at grid distance 1, and merging the neighbouring tiles of every surviving
cell in that order. The side that orients the footprint is the defender's own. -/
theorem getAttackableHexes_eq_bySide_defender (G : HexGrid) (defender attacker : Unit) :
    getAttackableHexes G defender attacker =
      attackableHexesBySide G defender attacker defender.side := by
  unfold getAttackableHexes attackableHexesBySide
  rw [foldl_flatMap_eq]
  dsimp only
  congr 1
  funext acc d
  rw [pruned_storage]
  rfl

/-- C1, counterexample: a single-cell defender at 40 on side DEFENDER and a double-cell
attacker on side ATTACKER. The code orients the hypothetical footprint by the defender's side
(cells 40 and 41); the description with the attacker's own side (cells 40 and 39) gives a
different sequence. -/
theorem getAttackableHexes_ne_bySide_attacker :
    (getAttackableHexes stdGrid ⟨40, false, BattleSide.DEFENDER⟩
        ⟨100, true, BattleSide.ATTACKER⟩).internalStorage
      = [23, 24, 41, 58, 57, 39, 25, 42, 59, 40] ∧
    (getAttackableHexes stdGrid ⟨40, false, BattleSide.DEFENDER⟩
        ⟨100, true, BattleSide.ATTACKER⟩).internalStorage
      ≠ (attackableHexesBySide stdGrid ⟨40, false, BattleSide.DEFENDER⟩
          ⟨100, true, BattleSide.ATTACKER⟩ BattleSide.ATTACKER).internalStorage ∧
    contains stdGrid (getAttackableHexes stdGrid ⟨40, false, BattleSide.DEFENDER⟩
        ⟨100, true, BattleSide.ATTACKER⟩) 25 = true ∧
    contains stdGrid (attackableHexesBySide stdGrid ⟨40, false, BattleSide.DEFENDER⟩
        ⟨100, true, BattleSide.ATTACKER⟩ BattleSide.ATTACKER) 25 = false := by
  decide

/-- C2, the code at the failing input: on the set holding the single coordinate 5,
`erase(0)` tombstones slot 0 but clears the flag of index 0 instead of the flag of the erased
coordinate 5, so `contains(5)` is still true afterwards. -/
theorem erase_keeps_flag_of_erased_coordinate :
    (BattleHexArray.insert stdGrid empty 5).internalStorage = [5] ∧
    (erase stdGrid (BattleHexArray.insert stdGrid empty 5) 0).map
      (fun r => r.internalStorage) = some [-1] ∧
    (erase stdGrid (BattleHexArray.insert stdGrid empty 5) 0).map
      (fun r => contains stdGrid r 5) = some true := by
  decide

/-- C3, the code at the failing input: for the top-row cell 1 the two upward directions
are off the board and are dropped by `insert`, so `generateAllNeighbouringTiles(1)` has four
entries instead of six, and the entry at direction index 0 is the RIGHT neighbour 2, neither
the TOP_LEFT neighbour nor the invalid sentinel. -/
theorem generateAllNeighbouringTiles_top_row :
    (generateAllNeighbouringTiles stdGrid 1).internalStorage = [2, 19, 18, 0] ∧
    (generateAllNeighbouringTiles stdGrid 1).size = 4 ∧
    stdGrid.cloneInDirection 1 EDir.TOP_LEFT = -16 ∧
    stdGrid.cloneInDirection 1 EDir.RIGHT = 2 ∧
    stdGrid.INVALID = -1 := by
  decide

/-- C4, as amended: for every hex set and every valid non-tower coordinate `h`: after
`insert(h)`, `contains(h)` is true provided that before the insertion `size() < N` or `h` was
already contained, and this proviso is not needed for sets built from the empty set without
`erase(index)`; in every case a second `insert(h)` leaves the set (so its size and stored
sequence) unchanged. -/
theorem insert_contains_and_idempotent (G : HexGrid) (s : BattleHexArray) (h : Int)
    (hv : G.isValid h = true) (ht : isTower G h = false) :
    ((s.size < G.totalSize ∨ contains G s h = true) →
        contains G (BattleHexArray.insert G s h) h = true) ∧
    (Built G s → contains G (BattleHexArray.insert G s h) h = true) ∧
    (BattleHexArray.insert G (BattleHexArray.insert G s h) h).size
        = (BattleHexArray.insert G s h).size ∧
    (BattleHexArray.insert G (BattleHexArray.insert G s h) h).internalStorage
        = (BattleHexArray.insert G s h).internalStorage := by
  refine ⟨contains_insert_self G s h hv ht, ?_, ?_, ?_⟩
  · intro hb
    cases hc : contains G s h
    · exact contains_insert_self G s h hv ht
        (Or.inl (size_lt_of_repInv G s h (built_repInv G s hb) hv hc))
    · exact contains_insert_self G s h hv ht (Or.inr hc)
  · rw [insert_insert_same]
  · rw [insert_insert_same]

/-- C4, witness: the amended statement at the set holding 7 and the coordinate 5. -/
theorem insert_contains_and_idempotent_witness :
    stdGrid.isValid 5 = true ∧ isTower stdGrid 5 = false ∧
    (((BattleHexArray.insert stdGrid empty 7).size < stdGrid.totalSize ∨
        contains stdGrid (BattleHexArray.insert stdGrid empty 7) 5 = true) →
      contains stdGrid
        (BattleHexArray.insert stdGrid (BattleHexArray.insert stdGrid empty 7) 5) 5 = true) :=
  ⟨by decide, by decide,
    (insert_contains_and_idempotent stdGrid (BattleHexArray.insert stdGrid empty 7) 5
      (by decide) (by decide)).1⟩

set_option maxRecDepth 100000 in
/-- C4, counterexample: fill the set with all 187 cells, tombstone slot 0 with `erase(0)`, and
insert the coordinate 0 again. The set `r` left by `erase(0)` is reachable with the public
mutators, 0 is valid and not a tower, but the insertion is rejected by the capacity guard and
`contains(0)` is false. -/
theorem insert_after_erase_at_capacity :
    ∃ r : BattleHexArray, erase stdGrid (fullBoard stdGrid) 0 = some r ∧
      Mutated stdGrid r ∧
      stdGrid.isValid 0 = true ∧ isTower stdGrid 0 = false ∧
      contains stdGrid (BattleHexArray.insert stdGrid r 0) 0 = false := by
  have he : erase stdGrid (fullBoard stdGrid) 0 =
      some ⟨(fullBoard stdGrid).internalStorage.set 0 stdGrid.INVALID,
        setFlag (fullBoard stdGrid).presenceFlags 0 false⟩ := by
    unfold erase
    rw [if_pos (by decide)]
  exact ⟨_, he,
    Mutated.erase _ _ 0 (mutated_foldl_insert stdGrid _ empty Mutated.empty) he,
    by decide, by decide, by decide⟩

/-- C5, as amended: for every unit and every coordinate `pos`, `pos` is a member of
`getHexes(position, doubleWide, side)` of that unit if and only if `coversPos(pos)` is true
and `pos` is valid and not a tower cell. So for every valid non-tower `pos`, `coversPos(pos)`
is true exactly when `pos` is a member of `getHexes` (as an element of the sequence, and
equally according to `contains`). -/
theorem coversPos_iff_mem_getHexes (G : HexGrid) (u : Unit) (pos : Int) :
    (pos ∈ (getHexes G u.position u.doubleWide u.side).internalStorage ↔
      coversPos G u pos = true ∧ G.isValid pos = true ∧ isTower G pos = false) ∧
    (G.isValid pos = true → isTower G pos = false →
      (coversPos G u pos = true ↔
        pos ∈ (getHexes G u.position u.doubleWide u.side).internalStorage) ∧
      (coversPos G u pos = true ↔
        contains G (getHexes G u.position u.doubleWide u.side) pos = true)) := by
  obtain ⟨position, dw, side⟩ := u
  have back : pos ∈ (getHexes G position dw side).internalStorage →
      coversPos G ⟨position, dw, side⟩ pos = true := by
    cases dw
    · simp only [coversPos, getHexes, Bool.false_and, Bool.or_false, beq_iff_eq,
        Bool.false_eq_true, if_false]
      intro h
      rcases mem_insert_cases G empty _ _ h with h | h
      · exact absurd h (List.not_mem_nil _)
      · exact h.symm
    · simp only [coversPos, getHexes, Bool.true_and, Bool.or_eq_true, beq_iff_eq, if_true]
      intro h
      rcases mem_insert_cases G _ _ _ h with h | h
      · rcases mem_insert_cases G empty _ _ h with h | h
        · exact absurd h (List.not_mem_nil _)
        · exact Or.inl h.symm
      · exact Or.inr h.symm
  have forth : G.isValid pos = true → isTower G pos = false →
      coversPos G ⟨position, dw, side⟩ pos = true →
      pos ∈ (getHexes G position dw side).internalStorage := by
    intro hv ht
    cases dw
    · simp only [coversPos, getHexes, Bool.false_and, Bool.or_false, beq_iff_eq,
        Bool.false_eq_true, if_false]
      intro h
      subst h
      exact mem_insert_self G empty _ (repInv_empty G) hv ht
    · simp only [coversPos, getHexes, Bool.true_and, Bool.or_eq_true, beq_iff_eq, if_true]
      intro h
      rcases h with h | h
      · subst h
        exact mem_insert_of_mem G _ _ _ (mem_insert_self G empty _ (repInv_empty G) hv ht)
      · rw [h]
        exact mem_insert_self G _ pos (repInv_insert G _ _ (repInv_empty G)) hv ht
  have hinv := getHexes_repInv G position dw side
  refine ⟨⟨fun hm => ⟨back hm, hinv.admitted pos hm⟩, fun h => forth h.2.1 h.2.2 h.1⟩, ?_⟩
  intro hv ht
  have key : coversPos G ⟨position, dw, side⟩ pos = true ↔
      pos ∈ (getHexes G position dw side).internalStorage := ⟨forth hv ht, back⟩
  exact ⟨key, key.trans (hinv.flags pos hv).symm⟩

/-- C5, witness: the double-cell unit at 30 on side ATTACKER covers its secondary cell 29. -/
theorem coversPos_iff_mem_getHexes_witness :
    stdGrid.isValid 29 = true ∧ isTower stdGrid 29 = false ∧
    (coversPos stdGrid ⟨30, true, BattleSide.ATTACKER⟩ 29 = true ↔
      (29 : Int) ∈ (getHexes stdGrid 30 true BattleSide.ATTACKER).internalStorage) :=
  ⟨by decide, by decide,
    ((coversPos_iff_mem_getHexes stdGrid ⟨30, true, BattleSide.ATTACKER⟩ 29).2
      (by decide) (by decide)).1⟩

/-- C5, counterexample: the double-cell unit at 0 on side ATTACKER has the secondary cell
0 - 1, the invalid sentinel; `coversPos` is true for it, but `getHexes` is the sequence `[0]`
and does not hold it. -/
theorem coversPos_invalid_secondary_cell :
    coversPos stdGrid ⟨0, true, BattleSide.ATTACKER⟩ stdGrid.INVALID = true ∧
    (getHexes stdGrid 0 true BattleSide.ATTACKER).internalStorage = [0] ∧
    stdGrid.INVALID ∉ (getHexes stdGrid 0 true BattleSide.ATTACKER).internalStorage ∧
    contains stdGrid (getHexes stdGrid 0 true BattleSide.ATTACKER) stdGrid.INVALID = false := by
  decide

/-- C6, as amended: for any valid non-tower coordinate `p` and any side,
`getHexes(p, false, side)` is the sequence `[p]`; `getHexes(p, true, ATTACKER)` is `[p, p-1]`
when `p-1` is valid and not a tower cell and `[p]` otherwise; `getHexes(p, true, DEFENDER)` is
`[p, p+1]` when `p+1` is valid and not a tower cell and `[p]` otherwise. -/
theorem getHexes_at_valid_position (G : HexGrid) (p : Int) (side : BattleSide)
    (hv : G.isValid p = true) (ht : isTower G p = false) :
    (getHexes G p false side).internalStorage = [p] ∧
    (getHexes G p true BattleSide.ATTACKER).internalStorage =
      (if G.isValid (p - 1) = true ∧ isTower G (p - 1) = false then [p, p - 1] else [p]) ∧
    (getHexes G p true BattleSide.DEFENDER).internalStorage =
      (if G.isValid (p + 1) = true ∧ isTower G (p + 1) = false then [p, p + 1] else [p]) := by
  have hp := (isValid_iff G p).1 hv
  have hN := G.totalSize_le
  refine ⟨?_, ?_, ?_⟩
  · simp only [getHexes, Bool.false_eq_true, if_false]
    rw [insert_empty_valid G p hv ht]
  · simp only [getHexes, occupiedHex, if_true]
    rw [toSi16_of_small (p - 1) (by omega) (by omega)]
    exact insert_second_cell G p (p - 1) hv ht (by omega)
  · simp only [getHexes, occupiedHex, if_true]
    rw [if_neg (by decide), toSi16_of_small (p + 1) (by omega) (by omega)]
    exact insert_second_cell G p (p + 1) hv ht (by omega)

/-- C6, witness (the scenario of the description): `getHexes(30, true, ATTACKER) = [30, 29]`. -/
theorem getHexes_at_valid_position_witness :
    stdGrid.isValid 30 = true ∧ isTower stdGrid 30 = false ∧
    (getHexes stdGrid 30 true BattleSide.ATTACKER).internalStorage = [30, 29] :=
  ⟨by decide, by decide,
    (getHexes_at_valid_position stdGrid 30 BattleSide.ATTACKER (by decide) (by decide)).2.1.trans
      (by decide)⟩

/-- C6, counterexample: at the valid position 0 the secondary cell 0 - 1 of side ATTACKER is
not valid and is not admitted, so `getHexes(0, true, ATTACKER)` is `[0]` and not `[0, 0 - 1]`;
and at the invalid sentinel `getHexes(-1, false, side)` is empty, not `[-1]`. -/
theorem getHexes_drops_invalid_cells :
    (getHexes stdGrid 0 true BattleSide.ATTACKER).internalStorage = [0] ∧
    (getHexes stdGrid 0 true BattleSide.ATTACKER).internalStorage ≠ [0, 0 - 1] ∧
    (getHexes stdGrid (-1) false BattleSide.ATTACKER).internalStorage = [] ∧
    (getHexes stdGrid (-1) false BattleSide.ATTACKER).internalStorage ≠ [-1] := by
  decide

/-- C7: every hex set built from the empty set by `insert`, positional `insert`,
`checkAndPush`, `merge`, `pop_back` and `clear` has a duplicate-free sequence, stores only
valid non-tower coordinates, and for every valid coordinate `h` has `contains(h)` true if and
only if `h` occurs in the sequence. -/
theorem built_satisfies_invariant (G : HexGrid) (s : BattleHexArray) (hb : Built G s) :
    s.internalStorage.Nodup ∧
    (∀ h ∈ s.internalStorage, G.isValid h = true ∧ isTower G h = false) ∧
    (∀ h, G.isValid h = true → (contains G s h = true ↔ h ∈ s.internalStorage)) :=
  ⟨(built_repInv G s hb).nodup, (built_repInv G s hb).admitted, (built_repInv G s hb).flags⟩

/-- C7, witness: the set obtained by inserting 5, inserting 7 in front of it and removing the
last element. -/
theorem built_satisfies_invariant_witness :
    Built stdGrid (pop_back (insertAt stdGrid (BattleHexArray.insert stdGrid empty 5) 0 7).2) ∧
    (pop_back (insertAt stdGrid (BattleHexArray.insert stdGrid empty 5) 0 7).2).internalStorage.Nodup :=
  ⟨Built.pop_back _ (Built.insertAt _ 0 7 (Built.insert _ 5 Built.empty) (by decide))
      ⟨5, by decide, by decide⟩,
    (built_satisfies_invariant stdGrid _
      (Built.pop_back _ (Built.insertAt _ 0 7 (Built.insert _ 5 Built.empty) (by decide))
        ⟨5, by decide, by decide⟩)).1⟩

/-- C8: after any sequence of `insert`, positional `insert`, `checkAndPush` and `merge`
operations applied to the empty hex set, with arbitrary arguments, `size()` is at most
`totalSize`; every intermediate set is itself such a set, so the bound holds after each
step. -/
theorem grown_size_le_totalSize (G : HexGrid) (s : BattleHexArray) (hg : Grown G s) :
    s.size ≤ G.totalSize := by
  induction hg with
  | empty => exact Nat.zero_le _
  | insert s h _ ih => exact size_insert_le G s h ih
  | insertAt s k h _ _ ih => exact size_insertAt_le G s k h ih
  | checkAndPush s t _ ih =>
    unfold checkAndPush
    split
    · exact size_insert_le G s t ih
    · exact ih
  | merge s o _ ih => exact size_foldl_insert_le G o.internalStorage s ih

/-- C8, witness: inserting 5, the invalid sentinel and 5 again, then merging the full board. -/
theorem grown_size_le_totalSize_witness :
    Grown stdGrid (merge stdGrid
      (BattleHexArray.insert stdGrid
        (BattleHexArray.insert stdGrid (BattleHexArray.insert stdGrid empty 5) (-1)) 5)
      (fullBoard stdGrid)) ∧
    (merge stdGrid
      (BattleHexArray.insert stdGrid
        (BattleHexArray.insert stdGrid (BattleHexArray.insert stdGrid empty 5) (-1)) 5)
      (fullBoard stdGrid)).size ≤ stdGrid.totalSize :=
  ⟨Grown.merge _ _ (Grown.insert _ 5 (Grown.insert _ (-1) (Grown.insert _ 5 Grown.empty))),
    grown_size_le_totalSize stdGrid _
      (Grown.merge _ _ (Grown.insert _ 5 (Grown.insert _ (-1) (Grown.insert _ 5 Grown.empty))))⟩

/-- C9: `insert(coord)` leaves the set unchanged (sequence and all flags) whenever `coord` is
a tower cell, is not valid, is already contained, or `size() >= N`; in every other case it
appends `coord` at the end of the sequence, sets the presence flag of `coord` and leaves every
other flag as it was (so `contains` changes at `coord` only). The function is total: no error
is raised. -/
theorem insert_noop_or_append (G : HexGrid) (s : BattleHexArray) (coord : Int) :
    ((isTower G coord = true ∨ G.isValid coord = false ∨ contains G s coord = true ∨
        s.size ≥ G.totalSize) →
      BattleHexArray.insert G s coord = s) ∧
    (¬ (isTower G coord = true ∨ G.isValid coord = false ∨ contains G s coord = true ∨
        s.size ≥ G.totalSize) →
      (BattleHexArray.insert G s coord).internalStorage = s.internalStorage ++ [coord] ∧
      (BattleHexArray.insert G s coord).presenceFlags coord.toNat = true ∧
      (∀ i : Nat, i ≠ coord.toNat →
        (BattleHexArray.insert G s coord).presenceFlags i = s.presenceFlags i) ∧
      contains G (BattleHexArray.insert G s coord) coord = true ∧
      (∀ h : Int, h ≠ coord →
        contains G (BattleHexArray.insert G s coord) h = contains G s h)) := by
  constructor
  · intro hrej
    apply insert_rejected
    unfold isNotValidForInsertion
    rcases hrej with h | h | h | h
    · simp [h]
    · simp [h]
    · simp [h]
    · simp [h]
  · intro hacc
    have hr : isNotValidForInsertion G s coord = false := by
      rw [admitted_iff]
      refine ⟨?_, ?_, ?_, ?_⟩
      · cases h : isTower G coord
        · rfl
        · exact absurd (Or.inl h) hacc
      · cases h : G.isValid coord
        · exact absurd (Or.inr (Or.inl h)) hacc
        · rfl
      · cases h : contains G s coord
        · rfl
        · exact absurd (Or.inr (Or.inr (Or.inl h))) hacc
      · exact Nat.lt_of_not_le (fun h => hacc (Or.inr (Or.inr (Or.inr h))))
    obtain ⟨_, hv, _, _⟩ := (admitted_iff G s coord).1 hr
    rw [insert_admitted G s coord hr]
    refine ⟨rfl, by simp [setFlag], ?_, ?_, ?_⟩
    · intro i hi
      simp [setFlag, hi]
    · rw [contains_setFlag G s _ coord coord true hv hv]
      simp
    · intro h hne
      cases hh : G.isValid h
      · simp [contains, hh]
      · rw [contains_setFlag G s _ coord h true hv hh]
        simp [hne]

/-- C9, witness: inserting 5 into the empty set appends it; inserting the invalid sentinel
changes nothing. -/
theorem insert_noop_or_append_witness :
    (BattleHexArray.insert stdGrid empty 5).internalStorage = empty.internalStorage ++ [5] ∧
    BattleHexArray.insert stdGrid empty (-1) = empty :=
  ⟨((insert_noop_or_append stdGrid empty 5).2 (by decide)).1,
    (insert_noop_or_append stdGrid empty (-1)).1 (by decide)⟩

theorem mem_foldl_insert_of_mem (G : HexGrid) (l : List Int) :
    ∀ (s : BattleHexArray) (x : Int), x ∈ s.internalStorage →
      x ∈ (l.foldl (BattleHexArray.insert G) s).internalStorage := by
  induction l with
  | nil => intro s x hx; exact hx
  | cons a l ih => intro s x hx; exact ih _ x (mem_insert_of_mem G s a x hx)

theorem mem_foldl_insert_of_mem_list (G : HexGrid) (l : List Int) :
    ∀ s : BattleHexArray, RepInv G s → ∀ x ∈ l, G.isValid x = true → isTower G x = false →
      x ∈ (l.foldl (BattleHexArray.insert G) s).internalStorage := by
  induction l with
  | nil => intro s _ x hx; exact absurd hx (List.not_mem_nil _)
  | cons a l ih =>
    intro s hs x hx hv ht
    rcases List.mem_cons.1 hx with hxa | hxl
    · rw [← hxa]
      exact mem_foldl_insert_of_mem G l _ x (mem_insert_self G s x hs hv ht)
    · exact ih _ (repInv_insert G s a hs) x hxl hv ht

theorem mem_merge_left (G : HexGrid) (s other : BattleHexArray) (x : Int)
    (hx : x ∈ s.internalStorage) : x ∈ (merge G s other).internalStorage :=
  mem_foldl_insert_of_mem G other.internalStorage s x hx

theorem mem_merge_right (G : HexGrid) (s other : BattleHexArray) (x : Int) (hs : RepInv G s)
    (hx : x ∈ other.internalStorage) (hv : G.isValid x = true) (ht : isTower G x = false) :
    x ∈ (merge G s other).internalStorage :=
  mem_foldl_insert_of_mem_list G other.internalStorage s hs x hx hv ht

theorem repInv_foldl_checkAndPush (G : HexGrid) (f : EDir → Int) (l : List EDir) :
    ∀ s : BattleHexArray, RepInv G s →
      RepInv G (l.foldl (fun ret dir => checkAndPush G ret (f dir)) s) := by
  induction l with
  | nil => intro s hs; exact hs
  | cons a l ih => intro s hs; exact ih _ (repInv_checkAndPush G s (f a) hs)

theorem generateNeighbouringTiles_repInv (G : HexGrid) (h : Int) :
    RepInv G (generateNeighbouringTiles G h) :=
  repInv_foldl_checkAndPush G (G.cloneInDirection h) hexagonalDirections empty (repInv_empty G)

theorem neighbourFold_repInv (G : HexGrid) (l : List Int) :
    ∀ s : BattleHexArray, RepInv G s →
      RepInv G (l.foldl (fun result c => merge G result (generateNeighbouringTiles G c)) s) := by
  induction l with
  | nil => intro s hs; exact hs
  | cons a l ih => intro s hs; exact ih _ (repInv_merge G s _ hs)

theorem neighbourFold_mem_of_mem (G : HexGrid) (l : List Int) :
    ∀ (s : BattleHexArray) (x : Int), x ∈ s.internalStorage →
      x ∈ (l.foldl (fun result c => merge G result (generateNeighbouringTiles G c))
        s).internalStorage := by
  induction l with
  | nil => intro s x hx; exact hx
  | cons a l ih => intro s x hx; exact ih _ x (mem_merge_left G s _ x hx)

theorem neighbourFold_mem (G : HexGrid) (l : List Int) :
    ∀ s : BattleHexArray, RepInv G s → ∀ c ∈ l,
      ∀ n ∈ (generateNeighbouringTiles G c).internalStorage,
        n ∈ (l.foldl (fun result c => merge G result (generateNeighbouringTiles G c))
          s).internalStorage := by
  induction l with
  | nil => intro s _ c hc; exact absurd hc (List.not_mem_nil _)
  | cons a l ih =>
    intro s hs c hc n hn
    rcases List.mem_cons.1 hc with hca | hcl
    · rw [hca] at hn
      have hadm := (generateNeighbouringTiles_repInv G a).admitted n hn
      exact neighbourFold_mem_of_mem G l _ n (mem_merge_right G s _ n hs hn hadm.1 hadm.2)
    · exact ih _ (repInv_merge G s _ hs) c hcl n hn

theorem getAttackableHexes_as_fold (G : HexGrid) (defender attacker : Unit) :
    getAttackableHexes G defender attacker =
      ((getHexes G defender.position defender.doubleWide defender.side).internalStorage.flatMap
          (fun d => prunedFootprint G d attacker.doubleWide defender.side)).foldl
        (fun result c => merge G result (generateNeighbouringTiles G c)) empty := by
  unfold getAttackableHexes
  rw [foldl_flatMap_eq]
  dsimp only
  congr 1
  funext acc d
  rw [pruned_storage]
  rfl

theorem mem_prunedFootprint_self (G : HexGrid) (d : Int) (twoHex : Bool) (side : BattleSide)
    (hv : G.isValid d = true) (ht : isTower G d = false) :
    d ∈ prunedFootprint G d twoHex side := by
  have hd := (isValid_iff G d).1 hv
  have hN := G.totalSize_le
  have hst : (getHexes G d twoHex side).internalStorage = [d] ∨
      ∃ q, (getHexes G d twoHex side).internalStorage = [d, q] := by
    cases twoHex
    · left
      simp only [getHexes, Bool.false_eq_true, if_false]
      rw [insert_empty_valid G d hv ht]
    · have hne : occupiedHex G d true side ≠ d := by
        unfold occupiedHex
        cases side
        · simp only [if_true]
          rw [toSi16_of_small (d - 1) (by omega) (by omega)]
          omega
        · rw [if_pos rfl, if_neg (by decide), toSi16_of_small (d + 1) (by omega) (by omega)]
          omega
      have h2 := insert_second_cell G d (occupiedHex G d true side) hv ht hne
      simp only [getHexes, if_true]
      rw [h2]
      split
      · exact Or.inr ⟨_, rfl⟩
      · exact Or.inl rfl
  unfold prunedFootprint
  rcases hst with h1 | ⟨q, h2⟩
  · rw [h1]
    simp
  · rw [h2]
    simp only
    split <;> simp

/-! ## Sequences produced by repeated insertion -/

theorem contains_iff_mem_of_repInv (G : HexGrid) (s : BattleHexArray) (h : Int)
    (hs : RepInv G s) : contains G s h = true ↔ h ∈ s.internalStorage := by
  cases hv : G.isValid h
  · constructor
    · intro hc
      simp [contains, hv] at hc
    · intro hm
      have := (hs.admitted h hm).1
      rw [hv] at this
      exact absurd this Bool.false_ne_true
  · exact hs.flags h hv

theorem checkAndPush_storage_cases (G : HexGrid) (s : BattleHexArray) (t : Int) :
    (checkAndPush G s t).internalStorage = s.internalStorage ∨
      (G.isAvailable t = true ∧
        (checkAndPush G s t).internalStorage = s.internalStorage ++ [t]) := by
  unfold checkAndPush
  cases hav : G.isAvailable t
  · left
    simp
  · cases hr : isNotValidForInsertion G s t
    · right
      rw [if_pos rfl, insert_admitted G s t hr]
      exact ⟨rfl, rfl⟩
    · left
      rw [if_pos rfl, insert_rejected G s t hr]

theorem pushAll_sublist (G : HexGrid) (L : List Int) :
    ∀ s : BattleHexArray, ∃ K : List Int,
      (L.foldl (checkAndPush G) s).internalStorage = s.internalStorage ++ K ∧
        K.Sublist (L.filter G.isAvailable) := by
  induction L with
  | nil => intro s; exact ⟨[], by simp, List.Sublist.refl _⟩
  | cons a L ih =>
    intro s
    obtain ⟨K, hK, hsub⟩ := ih (checkAndPush G s a)
    rcases checkAndPush_storage_cases G s a with h | ⟨hav, h⟩
    · refine ⟨K, ?_, ?_⟩
      · rw [List.foldl_cons, hK, h]
      · exact hsub.trans (List.Sublist.filter _ (List.sublist_cons_self a L))
    · refine ⟨a :: K, ?_, ?_⟩
      · rw [List.foldl_cons, hK, h, List.append_assoc]
        rfl
      · rw [List.filter_cons_of_pos hav]
        exact hsub.cons₂ a

theorem mem_pushAll_of_mem (G : HexGrid) (L : List Int) :
    ∀ (s : BattleHexArray) (x : Int), x ∈ s.internalStorage →
      x ∈ (L.foldl (checkAndPush G) s).internalStorage := by
  induction L with
  | nil => intro s x hx; exact hx
  | cons a L ih =>
    intro s x hx
    apply ih
    unfold checkAndPush
    split
    · exact mem_insert_of_mem G s a x hx
    · exact hx

theorem mem_pushAll (G : HexGrid)
    (hG : ∀ x, G.isAvailable x = true → G.isValid x = true ∧ isTower G x = false)
    (L : List Int) :
    ∀ s : BattleHexArray, RepInv G s → ∀ x ∈ L, G.isAvailable x = true →
      x ∈ (L.foldl (checkAndPush G) s).internalStorage := by
  induction L with
  | nil => intro s _ x hx; exact absurd hx (List.not_mem_nil _)
  | cons a L ih =>
    intro s hs x hx hav
    rcases List.mem_cons.1 hx with hxa | hxl
    · rw [List.foldl_cons]
      apply mem_pushAll_of_mem G L
      rw [← hxa]
      unfold checkAndPush
      rw [if_pos hav]
      exact mem_insert_self G s x hs (hG x hav).1 (hG x hav).2
    · exact ih _ (repInv_checkAndPush G s a hs) x hxl hav

theorem foldl_insert_storage (G : HexGrid) (l : List Int) :
    ∀ s : BattleHexArray, RepInv G s → l.Nodup →
      (∀ x ∈ l, G.isValid x = true ∧ isTower G x = false) →
      (l.foldl (BattleHexArray.insert G) s).internalStorage =
        s.internalStorage ++ l.filter (fun b => decide (b ∉ s.internalStorage)) := by
  induction l with
  | nil => intro s _ _ _; simp
  | cons a l ih =>
    intro s hs hnd hadm
    obtain ⟨hal, hndl⟩ := List.nodup_cons.1 hnd
    have hadml : ∀ x ∈ l, G.isValid x = true ∧ isTower G x = false :=
      fun x hx => hadm x (List.mem_cons_of_mem a hx)
    obtain ⟨hv, ht⟩ := hadm a (List.mem_cons_self a l)
    by_cases ham : a ∈ s.internalStorage
    · have hc : contains G s a = true := (hs.flags a hv).2 ham
      have hr : isNotValidForInsertion G s a = true := by
        simp [isNotValidForInsertion, hc, ht, hv]
      rw [List.foldl_cons, insert_rejected G s a hr, ih s hs hndl hadml,
        List.filter_cons_of_neg (by simp [ham])]
    · have hc : contains G s a = false := by
        cases hc : contains G s a
        · rfl
        · exact absurd ((hs.flags a hv).1 hc) ham
      have hr : isNotValidForInsertion G s a = false :=
        (admitted_iff G s a).2 ⟨ht, hv, hc, size_lt_of_repInv G s a hs hv hc⟩
      have hfil : l.filter (fun b => decide (b ∉ s.internalStorage ++ [a])) =
          l.filter (fun b => decide (b ∉ s.internalStorage)) := by
        apply List.filter_congr
        intro b hb
        have hne : b ≠ a := fun e => hal (e ▸ hb)
        simp [hne]
      have hrep := repInv_insert G s a hs
      rw [List.foldl_cons, ih _ hrep hndl hadml]
      rw [insert_admitted G s a hr]
      simp only
      rw [hfil, List.filter_cons_of_pos (by simp [ham]), List.append_assoc]
      rfl

theorem foldl_cond_insert (G : HexGrid) (P : Int → Bool) (l : List Int) :
    ∀ s : BattleHexArray,
      l.foldl (fun filtered hex => if P hex then BattleHexArray.insert G filtered hex
        else filtered) s = (l.filter P).foldl (BattleHexArray.insert G) s := by
  induction l with
  | nil => intro s; rfl
  | cons a l ih =>
    intro s
    cases hp : P a
    · rw [List.foldl_cons, List.filter_cons_of_neg (by simp [hp]), ← ih]
      simp [hp]
    · rw [List.foldl_cons, List.filter_cons_of_pos hp, List.foldl_cons, ← ih]
      simp [hp]

theorem stdGrid_available (x : Int) (h : stdGrid.isAvailable x = true) :
    stdGrid.isValid x = true ∧ isTower stdGrid x = false := by
  have h1 : stdIsAvailable x = true := h
  simp only [stdIsAvailable, Bool.and_eq_true, decide_eq_true_eq] at h1
  obtain ⟨⟨h0, h187⟩, _⟩ := h1
  constructor
  · rw [isValid_iff]
    exact ⟨h0, h187⟩
  · have e1 : stdGrid.CASTLE_CENTRAL_TOWER = -2 := rfl
    have e2 : stdGrid.CASTLE_UPPER_TOWER = -4 := rfl
    have e3 : stdGrid.CASTLE_BOTTOM_TOWER = -3 := rfl
    simp only [isTower, e1, e2, e3, Bool.or_eq_false_iff, beq_eq_false_iff_ne]
    omega

/-! ## The claims, continued -/

/-- C11: for every defender, every attacker and every cell `d` of the defender's `getHexes`,
every member of `generateNeighbouringTiles(d)` is a member of
`defender.getAttackableHexes(attacker)` (an element of its sequence, and contained according
to `contains`): the cell `d` itself always survives the distance pruning and the merge never
rejects one of its neighbours. -/
theorem neighbours_of_defender_cells_attackable (G : HexGrid) (defender attacker : Unit)
    (d : Int)
    (hd : d ∈ (getHexes G defender.position defender.doubleWide defender.side).internalStorage)
    (n : Int) (hn : n ∈ (generateNeighbouringTiles G d).internalStorage) :
    n ∈ (getAttackableHexes G defender attacker).internalStorage ∧
    contains G (getAttackableHexes G defender attacker) n = true := by
  have hadm := (getHexes_repInv G defender.position defender.doubleWide defender.side).admitted
    d hd
  have hrep : RepInv G (getAttackableHexes G defender attacker) := by
    rw [getAttackableHexes_as_fold]
    exact neighbourFold_repInv G _ empty (repInv_empty G)
  have hmem : n ∈ (getAttackableHexes G defender attacker).internalStorage := by
    rw [getAttackableHexes_as_fold]
    apply neighbourFold_mem G _ empty (repInv_empty G) d _ n hn
    rw [List.mem_flatMap]
    exact ⟨d, hd, mem_prunedFootprint_self G d _ _ hadm.1 hadm.2⟩
  exact ⟨hmem, (contains_iff_mem_of_repInv G _ n hrep).2 hmem⟩

/-- C11, witness (the scenario of the description): single-cell defender at 50, double-cell
attacker on side DEFENDER; the available neighbour 49 of the cell 50 is attackable. -/
theorem neighbours_of_defender_cells_attackable_witness :
    (50 : Int) ∈ (getHexes stdGrid 50 false BattleSide.ATTACKER).internalStorage ∧
    (49 : Int) ∈ (generateNeighbouringTiles stdGrid 50).internalStorage ∧
    (49 : Int) ∈ (getAttackableHexes stdGrid ⟨50, false, BattleSide.ATTACKER⟩
      ⟨100, true, BattleSide.DEFENDER⟩).internalStorage :=
  ⟨by decide, by decide,
    (neighbours_of_defender_cells_attackable stdGrid ⟨50, false, BattleSide.ATTACKER⟩
      ⟨100, true, BattleSide.DEFENDER⟩ 50 (by decide) 49 (by decide)).1⟩

/-- C12: on a grid where every available coordinate is valid and not a tower cell, for every
coordinate `h` the members of `generateNeighbouringTiles(h)` are exactly the coordinates
`h.cloneInDirection(d, false)`, `d` one of the six directions, that are available; every
member is available; there are no duplicates; the sequence is a subsequence of the available
neighbours listed in direction order (and equal to that list when the six neighbours are
pairwise distinct); and `size() <= 6`. -/
theorem generateNeighbouringTiles_available_neighbours (G : HexGrid) (h : Int)
    (hG : ∀ x, G.isAvailable x = true → G.isValid x = true ∧ isTower G x = false) :
    (∀ x, x ∈ (generateNeighbouringTiles G h).internalStorage ↔
      x ∈ hexagonalDirections.map (G.cloneInDirection h) ∧ G.isAvailable x = true) ∧
    (∀ x ∈ (generateNeighbouringTiles G h).internalStorage, G.isAvailable x = true) ∧
    (generateNeighbouringTiles G h).internalStorage.Nodup ∧
    (generateNeighbouringTiles G h).internalStorage.Sublist
      ((hexagonalDirections.map (G.cloneInDirection h)).filter G.isAvailable) ∧
    (generateNeighbouringTiles G h).size ≤ 6 ∧
    ((hexagonalDirections.map (G.cloneInDirection h)).Nodup →
      (generateNeighbouringTiles G h).internalStorage =
        (hexagonalDirections.map (G.cloneInDirection h)).filter G.isAvailable) := by
  have hfold : generateNeighbouringTiles G h =
      (hexagonalDirections.map (G.cloneInDirection h)).foldl (checkAndPush G) empty := by
    unfold generateNeighbouringTiles
    rw [List.foldl_map]
  obtain ⟨K, hK, hsub⟩ := pushAll_sublist G (hexagonalDirections.map (G.cloneInDirection h)) empty
  have hst : (generateNeighbouringTiles G h).internalStorage = K := by
    rw [hfold, hK]
    rfl
  have hmem : ∀ x, x ∈ (generateNeighbouringTiles G h).internalStorage ↔
      x ∈ hexagonalDirections.map (G.cloneInDirection h) ∧ G.isAvailable x = true := by
    intro x
    constructor
    · intro hx
      rw [hst] at hx
      exact List.mem_filter.1 (hsub.subset hx)
    · intro hx
      rw [hfold]
      exact mem_pushAll G hG _ empty (repInv_empty G) x hx.1 hx.2
  have hnd := (generateNeighbouringTiles_repInv G h).nodup
  have hlen : (generateNeighbouringTiles G h).size ≤ 6 := by
    have h1 := hsub.length_le
    have h2 := (List.filter_sublist (p := G.isAvailable)
      (hexagonalDirections.map (G.cloneInDirection h))).length_le
    have h3 : (hexagonalDirections.map (G.cloneInDirection h)).length = 6 := by
      simp [hexagonalDirections]
    unfold size
    rw [hst]
    omega
  refine ⟨hmem, fun x hx => ((hmem x).1 hx).2, hnd, by rw [hst]; exact hsub, hlen, ?_⟩
  intro hLnd
  rw [hst]
  apply hsub.eq_of_length_le
  apply List.Subperm.length_le
  apply List.subperm_of_subset (List.Nodup.filter _ hLnd)
  intro x hx
  rw [← hst]
  exact (hmem x).2 (List.mem_filter.1 hx)

/-- C12, witness: the neighbours of the cell 30 on the standard grid. -/
theorem generateNeighbouringTiles_available_neighbours_witness :
    (∀ x, stdGrid.isAvailable x = true →
      stdGrid.isValid x = true ∧ isTower stdGrid x = false) ∧
    (generateNeighbouringTiles stdGrid 30).internalStorage = [12, 13, 31, 47, 46, 29] ∧
    (generateNeighbouringTiles stdGrid 30).internalStorage.Nodup ∧
    (generateNeighbouringTiles stdGrid 30).size ≤ 6 :=
  ⟨stdGrid_available, by decide,
    (generateNeighbouringTiles_available_neighbours stdGrid 30 stdGrid_available).2.2.1,
    (generateNeighbouringTiles_available_neighbours stdGrid 30 stdGrid_available).2.2.2.2.1⟩

/-- C13: for hex sets `A` and `B` that satisfy the representation invariant, the sequence of
`A.merge(B)` is the sequence of `A` followed by the members of `B` that were not in `A`, in
the order of `B`; its length never exceeds `N`, so cutting it off at `N` entries changes
nothing; the result satisfies the invariant, and `contains(h)` on the result is true exactly
for the coordinates of the resulting sequence. -/
theorem merge_order_preserving_union (G : HexGrid) (A B : BattleHexArray)
    (hA : RepInv G A) (hB : RepInv G B) :
    (merge G A B).internalStorage =
      A.internalStorage ++ B.internalStorage.filter (fun b => decide (b ∉ A.internalStorage)) ∧
    (merge G A B).internalStorage =
      (A.internalStorage ++
        B.internalStorage.filter (fun b => decide (b ∉ A.internalStorage))).take G.totalSize ∧
    (merge G A B).size ≤ G.totalSize ∧
    RepInv G (merge G A B) ∧
    (∀ h, contains G (merge G A B) h = true ↔
      h ∈ A.internalStorage ∨ h ∈ B.internalStorage) := by
  have hst := foldl_insert_storage G B.internalStorage A hA hB.nodup hB.admitted
  have hrep := repInv_merge G A B hA
  have hlen : (merge G A B).size ≤ G.totalSize :=
    length_le_of_nodup_valid G _ hrep.nodup (fun x hx => (hrep.admitted x hx).1)
  refine ⟨hst, ?_, hlen, hrep, ?_⟩
  · have hst2 : (merge G A B).internalStorage =
        A.internalStorage ++ B.internalStorage.filter (fun b => decide (b ∉ A.internalStorage)) :=
      hst
    rw [List.take_of_length_le]
    · exact hst2
    · rw [← hst2]
      exact hlen
  · intro h
    rw [contains_iff_mem_of_repInv G _ h hrep]
    have hst2 : (merge G A B).internalStorage =
        A.internalStorage ++ B.internalStorage.filter (fun b => decide (b ∉ A.internalStorage)) :=
      hst
    rw [hst2, List.mem_append, List.mem_filter]
    constructor
    · rintro (h1 | h2)
      · exact Or.inl h1
      · exact Or.inr h2.1
    · rintro (h1 | h2)
      · exact Or.inl h1
      · by_cases hm : h ∈ A.internalStorage
        · exact Or.inl hm
        · exact Or.inr ⟨h2, by simp [hm]⟩

/-- C13, witness: merging the set `[7, 5]` into the set `[5, 9]` gives `[5, 9, 7]`. -/
theorem merge_order_preserving_union_witness :
    (merge stdGrid
      (BattleHexArray.insert stdGrid (BattleHexArray.insert stdGrid empty 5) 9)
      (BattleHexArray.insert stdGrid (BattleHexArray.insert stdGrid empty 7) 5)).internalStorage
      = [5, 9, 7] :=
  (merge_order_preserving_union stdGrid
    (BattleHexArray.insert stdGrid (BattleHexArray.insert stdGrid empty 5) 9)
    (BattleHexArray.insert stdGrid (BattleHexArray.insert stdGrid empty 7) 5)
    (repInv_insert _ _ _ (repInv_insert _ _ _ (repInv_empty _)))
    (repInv_insert _ _ _ (repInv_insert _ _ _ (repInv_empty _)))).1.trans (by decide)

/-- C14: for every hex set `S` that satisfies the representation invariant and every
predicate `P`, the sequence of `S.filterBy(P)` is the sequence of `S` filtered by `P` (same
members, same relative order, none dropped), the result satisfies the representation
invariant, and `contains` on the result is true exactly for the members of `S` that satisfy
`P`. The function builds a new set and does not modify `S`. -/
theorem filterBy_is_filter (G : HexGrid) (S : BattleHexArray) (P : Int → Bool)
    (hS : RepInv G S) :
    (filterBy G S P).internalStorage = S.internalStorage.filter P ∧
    RepInv G (filterBy G S P) ∧
    (∀ h, contains G (filterBy G S P) h = true ↔ h ∈ S.internalStorage ∧ P h = true) := by
  have hfold : filterBy G S P = (S.internalStorage.filter P).foldl (BattleHexArray.insert G) empty := by
    unfold filterBy
    exact foldl_cond_insert G P S.internalStorage empty
  have hrep : RepInv G (filterBy G S P) := by
    rw [hfold]
    exact repInv_foldl_insert G _ empty (repInv_empty G)
  have hst : (filterBy G S P).internalStorage = S.internalStorage.filter P := by
    rw [hfold, foldl_insert_storage G _ empty (repInv_empty G) (List.Nodup.filter _ hS.nodup)
      (fun x hx => hS.admitted x (List.mem_filter.1 hx).1)]
    simp [empty]
  refine ⟨hst, hrep, ?_⟩
  intro h
  rw [contains_iff_mem_of_repInv G _ h hrep, hst, List.mem_filter]

/-- C14, witness: keeping the even members of the set `[5, 8, 12]` gives `[8, 12]`. -/
theorem filterBy_is_filter_witness :
    (filterBy stdGrid
      (BattleHexArray.insert stdGrid
        (BattleHexArray.insert stdGrid (BattleHexArray.insert stdGrid empty 5) 8) 12)
      (fun h => h % 2 == 0)).internalStorage = [8, 12] :=
  (filterBy_is_filter stdGrid
    (BattleHexArray.insert stdGrid
      (BattleHexArray.insert stdGrid (BattleHexArray.insert stdGrid empty 5) 8) 12)
    (fun h => h % 2 == 0)
    (repInv_insert _ _ _ (repInv_insert _ _ _ (repInv_insert _ _ _ (repInv_empty _))))).1.trans
    (by decide)

theorem rejected_iff (G : HexGrid) (s : BattleHexArray) (c : Int) :
    isNotValidForInsertion G s c = true ↔
      (isTower G c = true ∨ G.isValid c = false ∨ contains G s c = true ∨
        s.size ≥ G.totalSize) := by
  unfold isNotValidForInsertion
  cases isTower G c <;> cases G.isValid c <;> cases contains G s c <;> simp

theorem contains_of_not_valid (G : HexGrid) (s : BattleHexArray) (h : Int)
    (hv : G.isValid h = false) : contains G s h = false := by
  simp [contains, hv]

/-- C15: for every non-empty hex set that satisfies the representation invariant, with last
element `x = back()`: `pop_back()` reduces `size()` by exactly one, leaves the remaining
prefix of the sequence unchanged, makes `contains(x)` false and leaves `contains(h)`
unchanged for every other coordinate `h`. -/
theorem pop_back_removes_last (G : HexGrid) (s : BattleHexArray) (hs : RepInv G s)
    (hne : s.internalStorage ≠ []) :
    (pop_back s).size + 1 = s.size ∧
    s.internalStorage = (pop_back s).internalStorage ++ [back G s] ∧
    contains G (pop_back s) (back G s) = false ∧
    (∀ h, h ≠ back G s → contains G (pop_back s) h = contains G s h) := by
  have hx : s.internalStorage.getLast? = some (s.internalStorage.getLast hne) :=
    List.getLast?_eq_getLast _ hne
  have hback : back G s = s.internalStorage.getLast hne := by
    simp [back, hx]
  generalize s.internalStorage.getLast hne = x at hx hback
  rw [hback]
  have hsplit : s.internalStorage.dropLast ++ [x] = s.internalStorage :=
    List.dropLast_append_getLast? x hx
  have hmem : x ∈ s.internalStorage := by
    rw [← hsplit]
    simp
  have hxv := (hs.admitted x hmem).1
  have hpop : pop_back s = ⟨s.internalStorage.dropLast, setFlag s.presenceFlags x.toNat false⟩ := by
    unfold pop_back
    rw [hx]
  rw [hpop]
  refine ⟨?_, hsplit.symm, ?_, ?_⟩
  · have hlen := congrArg List.length hsplit
    simp only [List.length_append, List.length_singleton] at hlen
    exact hlen
  · rw [contains_setFlag G s _ x x false hxv hxv]
    simp
  · intro h hh
    cases hv : G.isValid h
    · rw [contains_of_not_valid G _ h hv, contains_of_not_valid G _ h hv]
    · rw [contains_setFlag G s _ x h false hxv hv]
      simp [hh]

/-- C15, witness: removing the last element of the set `[5, 7]`. -/
theorem pop_back_removes_last_witness :
    (BattleHexArray.insert stdGrid (BattleHexArray.insert stdGrid empty 5) 7).internalStorage
      ≠ [] ∧
    (pop_back (BattleHexArray.insert stdGrid (BattleHexArray.insert stdGrid empty 5) 7)).size + 1
      = (BattleHexArray.insert stdGrid (BattleHexArray.insert stdGrid empty 5) 7).size :=
  ⟨by decide,
    (pop_back_removes_last stdGrid _
      (repInv_insert _ _ _ (repInv_insert _ _ _ (repInv_empty _))) (by decide)).1⟩

/-- C16: for every hex set and every index `i < size()` that passes the assertion
`index < totalSize` of `erase` (as every index does when `size() <= N`), `erase(i)` has a
result `r`; it leaves `size()` unchanged, sets the value of slot `i` to the invalid sentinel
and leaves the value of every other slot unchanged. -/
theorem erase_tombstones_slot (G : HexGrid) (s : BattleHexArray) (i : Nat) (hi : i < s.size)
    (hN : i < G.totalSize) :
    ∃ r : BattleHexArray, erase G s i = some r ∧
      r.size = s.size ∧
      r.internalStorage[i]? = some G.INVALID ∧
      (∀ j, j ≠ i → r.internalStorage[j]? = s.internalStorage[j]?) := by
  have he : erase G s i =
      some ⟨s.internalStorage.set i G.INVALID, setFlag s.presenceFlags i false⟩ := by
    unfold erase
    rw [if_pos ⟨hN, hi⟩]
  refine ⟨_, he, ?_, ?_, ?_⟩
  · simp [size]
  · exact List.getElem?_set_self hi
  · intro j hj
    exact List.getElem?_set_ne (fun e => hj e.symm)

/-- C16, witness: erasing slot 0 of the set `[5, 7]` gives a set whose slot 0 holds the
invalid sentinel. -/
theorem erase_tombstones_slot_witness :
    0 < (BattleHexArray.insert stdGrid (BattleHexArray.insert stdGrid empty 5) 7).size ∧
    0 < stdGrid.totalSize ∧
    ∃ r : BattleHexArray,
      erase stdGrid (BattleHexArray.insert stdGrid (BattleHexArray.insert stdGrid empty 5) 7)
        0 = some r ∧
      r.internalStorage[0]? = some stdGrid.INVALID :=
  ⟨by decide, by decide,
    (erase_tombstones_slot stdGrid
      (BattleHexArray.insert stdGrid (BattleHexArray.insert stdGrid empty 5) 7) 0
      (by decide) (by decide)).imp (fun _ h => ⟨h.1, h.2.2.1⟩)⟩

/-- C17: for every hex set, every position `k <= size()` and every coordinate `c`: if `c` is
rejected by the admission rules (tower, not valid, already contained, or set at capacity),
`insert(k, c)` returns `k` and leaves the sequence and all presence flags unchanged; otherwise
the new sequence is the old one with `c` spliced in at position `k` (earlier elements
unchanged, later elements shifted by one), the returned position is `k`, `contains(c)` is
true and no other presence flag changes. -/
theorem insertAt_rejects_or_splices (G : HexGrid) (s : BattleHexArray) (k : Nat) (c : Int)
    (hk : k ≤ s.size) :
    ((isTower G c = true ∨ G.isValid c = false ∨ contains G s c = true ∨
        s.size ≥ G.totalSize) →
      insertAt G s k c = (k, s)) ∧
    (¬ (isTower G c = true ∨ G.isValid c = false ∨ contains G s c = true ∨
        s.size ≥ G.totalSize) →
      (insertAt G s k c).1 = k ∧
      (insertAt G s k c).2.internalStorage =
        s.internalStorage.take k ++ c :: s.internalStorage.drop k ∧
      (∀ j, j < k → (insertAt G s k c).2.internalStorage[j]? = s.internalStorage[j]?) ∧
      (insertAt G s k c).2.internalStorage[k]? = some c ∧
      (∀ j, k ≤ j → (insertAt G s k c).2.internalStorage[j + 1]? = s.internalStorage[j]?) ∧
      contains G (insertAt G s k c).2 c = true ∧
      (∀ h, h ≠ c → contains G (insertAt G s k c).2 h = contains G s h) ∧
      (∀ i : Nat, i ≠ c.toNat →
        (insertAt G s k c).2.presenceFlags i = s.presenceFlags i)) := by
  have hlen : (s.internalStorage.take k).length = k := List.length_take_of_le hk
  constructor
  · intro hrej
    have hr := (rejected_iff G s c).2 hrej
    simp [insertAt, hr]
  · intro hacc
    have hr : isNotValidForInsertion G s c = false := by
      cases h : isNotValidForInsertion G s c
      · rfl
      · exact absurd ((rejected_iff G s c).1 h) hacc
    obtain ⟨_, hv, _, _⟩ := (admitted_iff G s c).1 hr
    have hins : insertAt G s k c =
        (k, ⟨s.internalStorage.take k ++ c :: s.internalStorage.drop k,
          setFlag s.presenceFlags c.toNat true⟩) := by
      simp [insertAt, hr]
    rw [hins]
    refine ⟨rfl, rfl, ?_, ?_, ?_, ?_, ?_, ?_⟩
    · intro j hj
      show (s.internalStorage.take k ++ c :: s.internalStorage.drop k)[j]? = _
      rw [List.getElem?_append_left (by rw [hlen]; exact hj), List.getElem?_take_of_lt hj]
    · show (s.internalStorage.take k ++ c :: s.internalStorage.drop k)[k]? = _
      rw [List.getElem?_append_right (by rw [hlen]), hlen, Nat.sub_self]
      exact List.getElem?_cons_zero
    · intro j hj
      show (s.internalStorage.take k ++ c :: s.internalStorage.drop k)[j + 1]? = _
      rw [List.getElem?_append_right (by rw [hlen]; omega), hlen]
      have e : j + 1 - k = (j - k) + 1 := by omega
      rw [e, List.getElem?_cons_succ, List.getElem?_drop]
      congr 1
      omega
    · show contains G ⟨_, setFlag s.presenceFlags c.toNat true⟩ c = true
      rw [contains_setFlag G s _ c c true hv hv]
      simp
    · intro h hne
      show contains G ⟨_, setFlag s.presenceFlags c.toNat true⟩ h = _
      cases hh : G.isValid h
      · rw [contains_of_not_valid G _ h hh, contains_of_not_valid G _ h hh]
      · rw [contains_setFlag G s _ c h true hv hh]
        simp [hne]
    · intro i hi
      show setFlag s.presenceFlags c.toNat true i = _
      simp [setFlag, hi]

/-- C17, witness: inserting 9 at position 1 of the set `[5, 7]` gives `[5, 9, 7]`. -/
theorem insertAt_rejects_or_splices_witness :
    1 ≤ (BattleHexArray.insert stdGrid (BattleHexArray.insert stdGrid empty 5) 7).size ∧
    (insertAt stdGrid (BattleHexArray.insert stdGrid (BattleHexArray.insert stdGrid empty 5) 7)
      1 9).2.internalStorage = [5, 9, 7] :=
  ⟨by decide,
    ((insertAt_rejects_or_splices stdGrid
      (BattleHexArray.insert stdGrid (BattleHexArray.insert stdGrid empty 5) 7) 1 9
      (by decide)).2 (by decide)).2.1.trans (by decide)⟩

/-- C18: for every coordinate `p`, `occupiedHex(p, true, ATTACKER)` is the coordinate
`p - 1`, `occupiedHex(p, true, DEFENDER)` is the coordinate `p + 1`, and
`occupiedHex(p, false, side)` is the invalid sentinel for either side. The results are
coordinates, that is the 16-bit values of `p - 1` and `p + 1`; they are the integers `p - 1`
and `p + 1` themselves whenever these lie in the 16-bit range, in particular for every valid
`p`. -/
theorem occupiedHex_values (G : HexGrid) (p : Int) (side : BattleSide) :
    occupiedHex G p true BattleSide.ATTACKER = toSi16 (p - 1) ∧
    occupiedHex G p true BattleSide.DEFENDER = toSi16 (p + 1) ∧
    occupiedHex G p false side = G.INVALID ∧
    (-32768 < p → p ≤ 32767 → occupiedHex G p true BattleSide.ATTACKER = p - 1) ∧
    (-32768 ≤ p → p < 32767 → occupiedHex G p true BattleSide.DEFENDER = p + 1) ∧
    (G.isValid p = true →
      occupiedHex G p true BattleSide.ATTACKER = p - 1 ∧
      occupiedHex G p true BattleSide.DEFENDER = p + 1) := by
  have hA : occupiedHex G p true BattleSide.ATTACKER = toSi16 (p - 1) := by
    simp [occupiedHex]
  have hD : occupiedHex G p true BattleSide.DEFENDER = toSi16 (p + 1) := by
    simp [occupiedHex]
  refine ⟨hA, hD, by simp [occupiedHex], ?_, ?_, ?_⟩
  · intro h1 h2
    rw [hA, toSi16_of_small (p - 1) (by omega) (by omega)]
  · intro h1 h2
    rw [hD, toSi16_of_small (p + 1) (by omega) (by omega)]
  · intro hv
    have hp := (isValid_iff G p).1 hv
    have hN := G.totalSize_le
    rw [hA, hD, toSi16_of_small (p - 1) (by omega) (by omega),
      toSi16_of_small (p + 1) (by omega) (by omega)]
    exact ⟨rfl, rfl⟩

/-- C18, witness (the scenario of the description): `occupiedHex(30, true, ATTACKER) = 29`. -/
theorem occupiedHex_values_witness :
    occupiedHex stdGrid 30 true BattleSide.ATTACKER = 29 :=
  ((occupiedHex_values stdGrid 30 BattleSide.ATTACKER).2.2.2.1 (by decide) (by decide)).trans
    (by decide)

/-- C19, the code at the failing input: on the set `[5, 7, 1]`, `resize(2)` keeps the
sequence `[5, 7]` but clears the flags at the indices 2 and above, not the flags of the
removed elements: `contains(5)` and `contains(7)` are false although 5 and 7 remain, and
`contains(1)` is true although 1 was removed. -/
theorem resize_clears_flags_by_index :
    (BattleHexArray.insert stdGrid
      (BattleHexArray.insert stdGrid (BattleHexArray.insert stdGrid empty 5) 7)
      1).internalStorage = [5, 7, 1] ∧
    (resize stdGrid (BattleHexArray.insert stdGrid
      (BattleHexArray.insert stdGrid (BattleHexArray.insert stdGrid empty 5) 7) 1)
      2).internalStorage = [5, 7] ∧
    contains stdGrid (resize stdGrid (BattleHexArray.insert stdGrid
      (BattleHexArray.insert stdGrid (BattleHexArray.insert stdGrid empty 5) 7) 1) 2) 5
      = false ∧
    contains stdGrid (resize stdGrid (BattleHexArray.insert stdGrid
      (BattleHexArray.insert stdGrid (BattleHexArray.insert stdGrid empty 5) 7) 1) 2) 7
      = false ∧
    contains stdGrid (resize stdGrid (BattleHexArray.insert stdGrid
      (BattleHexArray.insert stdGrid (BattleHexArray.insert stdGrid empty 5) 7) 1) 2) 1
      = true := by
  decide

/-- C20: for every hex set built from the empty set with `insert`, positional `insert`,
`checkAndPush`, `merge`, `pop_back` and `clear`, the capacity guard never decides: for every
valid non-tower coordinate `h` that is not contained, `size() < N` holds and `insert(h)`
appends `h`; and `insert(h)` changes the set if and only if `h` is valid, not a tower cell and
not already contained. -/
theorem built_capacity_never_decides (G : HexGrid) (s : BattleHexArray) (hb : Built G s) :
    (∀ h, G.isValid h = true → isTower G h = false → contains G s h = false →
      s.size < G.totalSize ∧
      (BattleHexArray.insert G s h).internalStorage = s.internalStorage ++ [h] ∧
      contains G (BattleHexArray.insert G s h) h = true) ∧
    (∀ h, BattleHexArray.insert G s h ≠ s ↔
      (G.isValid h = true ∧ isTower G h = false ∧ contains G s h = false)) := by
  have hs := built_repInv G s hb
  have key : ∀ h, G.isValid h = true → isTower G h = false → contains G s h = false →
      isNotValidForInsertion G s h = false :=
    fun h hv ht hc => (admitted_iff G s h).2 ⟨ht, hv, hc, size_lt_of_repInv G s h hs hv hc⟩
  constructor
  · intro h hv ht hc
    have hr := key h hv ht hc
    refine ⟨size_lt_of_repInv G s h hs hv hc, ?_, ?_⟩
    · rw [insert_admitted G s h hr]
    · exact contains_insert_self G s h hv ht (Or.inl (size_lt_of_repInv G s h hs hv hc))
  · intro h
    constructor
    · intro hne
      cases hr : isNotValidForInsertion G s h
      · obtain ⟨ht, hv, hc, _⟩ := (admitted_iff G s h).1 hr
        exact ⟨hv, ht, hc⟩
      · exact absurd (insert_rejected G s h hr) hne
    · rintro ⟨hv, ht, hc⟩ heq
      have hr := key h hv ht hc
      rw [insert_admitted G s h hr] at heq
      have hlen := congrArg (fun t : BattleHexArray => t.internalStorage.length) heq
      simp at hlen

/-- C20, witness: the set obtained by inserting 5, inserting 7 in front of it and removing
the last element accepts the absent coordinate 5. -/
theorem built_capacity_never_decides_witness :
    Built stdGrid (pop_back (insertAt stdGrid (BattleHexArray.insert stdGrid empty 5) 0 7).2) ∧
    (pop_back (insertAt stdGrid (BattleHexArray.insert stdGrid empty 5) 0 7).2).size
      < stdGrid.totalSize :=
  ⟨Built.pop_back _ (Built.insertAt _ 0 7 (Built.insert _ 5 Built.empty) (by decide))
      ⟨5, by decide, by decide⟩,
    ((built_capacity_never_decides stdGrid _
      (Built.pop_back _ (Built.insertAt _ 0 7 (Built.insert _ 5 Built.empty) (by decide))
        ⟨5, by decide, by decide⟩)).1 5 (by decide) (by decide) (by decide)).1⟩

end VCMI
